import Mathlib

/-!
Verification development for the interview-to-user-stories extraction-consolidation
pipeline.  The Python sources under `src/worker/processors/` are shallowly embedded:

* `deduplication.py`  (class `DeduplicationEngine`)
* `consistency_checker.py`  (class `ConsistencyChecker`)
* `vector_processor.py`  (class `VectorProcessor`)

Modelling conventions, used throughout:

* Python `dict` story records become the structure `Story`; a key that may be
  absent becomes an `Option` field (`None`/missing ⇒ `none`).
* Python `float` arithmetic is modelled by exact rationals `ℚ`; `round(x, 3)`
  is banker's rounding to a multiple of 1/1000 (`pyRound3`).
* Python strings are modelled through their code-point lists (`String.data`);
  text helpers (`lower`, `strip`, regex character classes) are modelled for
  ASCII text, which is the character range the processors are written for.
* `hashlib.md5(s).hexdigest()` is an external digest of a canonical string; a
  hash value is modelled by the digest's preimage (the canonical data itself),
  which is faithful for every equality/inequality statement up to md5
  collisions.
* Library calls whose numerics live outside this repository (sklearn's
  `TfidfVectorizer` + `cosine_similarity`, numpy cosine over embeddings) are
  abstracted as function parameters (`vec`, `cosSim`); every theorem below is
  quantified over them unless the claim pins the value down.
-/

/-! ### Character and word level text helpers (ASCII model of `str` methods) -/

/-- ASCII model of Python `str.lower` on one character. -/
def lowerChar (c : Char) : Char :=
  if 'A' ≤ c ∧ c ≤ 'Z' then Char.ofNat (c.toNat + 32) else c

/-- Python whitespace class `\s` restricted to the ASCII characters that occur
in transcript text (space, tab, newline, carriage return). -/
def isPySpace (c : Char) : Bool :=
  c = ' ' ∨ c = '\t' ∨ c = '\n' ∨ c = '\r'

/-- Regex class `\w` (word character) for ASCII: alphanumeric or underscore,
as used by `re.sub(r'[^\w\s]', ' ', text)` in `_normalize_text`. -/
def isWordChar (c : Char) : Bool :=
  c.isAlphanum ∨ c = '_'

/-- Python `str.lower` (ASCII model). -/
def lowerStr (s : String) : String :=
  ⟨s.data.map lowerChar⟩

/-- Python `str.strip()` (ASCII whitespace model). -/
def stripStr (s : String) : String :=
  ⟨((s.data.dropWhile isPySpace).reverse.dropWhile isPySpace).reverse⟩

/-- Splits a character list on runs of whitespace, dropping empty pieces:
the behaviour of Python's no-argument `str.split()`. -/
def splitWs : List Char → List Char → List String
  | [], acc => if acc = [] then [] else [⟨acc.reverse⟩]
  | c :: cs, acc =>
    if isPySpace c then
      (if acc = [] then splitWs cs [] else ⟨acc.reverse⟩ :: splitWs cs [])
    else splitWs cs (c :: acc)

/-- Python `text.split()` (whitespace split, no empty fields). -/
def pySplit (s : String) : List String :=
  splitWs s.data []

/-- Splits on one literal separator character, keeping empty fields: the
behaviour of Python `text.split('.')`. -/
def splitOnDot : List Char → List Char → List String
  | [], acc => [⟨acc.reverse⟩]
  | c :: cs, acc =>
    if c = '.' then ⟨acc.reverse⟩ :: splitOnDot cs [] else splitOnDot cs (c :: acc)

/-- Python substring test `needle in haystack`. -/
def containsSub (hay needle : String) : Bool :=
  hay.data.tails.any (fun t => needle.data.isPrefixOf t)

/-- Python truthiness of an optional string field (`story.get(k)` is truthy
iff the key is present with a non-empty value). -/
def truthyStr (o : Option String) : Bool :=
  o.getD "" ≠ ""

/-- Python truthiness of an optional list field. -/
def truthyList (o : Option (List String)) : Bool :=
  o.getD [] ≠ []

/-! ### Rounding: Python `round(x, 3)` on exact rationals -/

/-- Round to the nearest integer, ties to even (Python's `round`). -/
def rne (q : ℚ) : ℤ :=
  if q - (⌊q⌋ : ℚ) < 1/2 then ⌊q⌋
  else if 1/2 < q - (⌊q⌋ : ℚ) then ⌊q⌋ + 1
  else if ⌊q⌋ % 2 = 0 then ⌊q⌋ else ⌊q⌋ + 1

/-- Python `round(x, 3)` modelled over exact rationals. -/
def pyRound3 (q : ℚ) : ℚ :=
  (rne (q * 1000) : ℚ) / 1000

/-! ### The story record

One Python story dict (as produced by extraction and processed by
`DeduplicationEngine`), with the keys the processors read or write.
A missing key is `none`. -/

structure Story where
  userStoryId : Option String := none
  userStory : Option String := none
  capability : Option String := none
  snippet : Option String := none
  category : Option String := none
  priority : Option String := none
  source : Option String := none
  contentHash : Option String := none
  tags : Option (List String) := none
  requirements : Option (List String) := none
  acceptanceCriteria : Option (List String) := none
  sourceFiles : Option (List String) := none
  matchScore : Option ℚ := none
  duplicateCount : Option ℕ := none
  mergeHash : Option String := none
  cleanText : Option String := none
  cleanCapability : Option String := none
  cleanSnippet : Option String := none
deriving DecidableEq, Repr, Inhabited

/-- The sort key `x.get('User Story ID', '')` used throughout the engine. -/
def idKey (s : Story) : String :=
  s.userStoryId.getD ""

/-- Boolean comparison used to model Python's stable `sorted(..., key=lambda
x: x.get('User Story ID', ''))`. -/
def idLe (a b : Story) : Bool :=
  decide (idKey a ≤ idKey b)

/-- String comparison as a Boolean, for `sorted` over string lists. -/
def strLe (a b : String) : Bool :=
  decide (a ≤ b)

/-! ### `DeduplicationEngine._normalize_text` and `_clean_stories` -/

/-- The filler-word list of `_normalize_text`. -/
def fillerWords : List String :=
  ["the", "a", "an", "and", "or", "but", "in", "on", "at", "to", "for", "of", "with", "by"]

/-- Word list produced by `_normalize_text`: lower-case, punctuation replaced
by spaces (`[^\w\s]` → space), whitespace split, filler words removed. -/
def normalizeWords (text : String) : List String :=
  let cs := text.data.map lowerChar
  let cs := cs.map (fun c => if isWordChar c ∨ isPySpace c then c else ' ')
  (splitWs cs []).filter (fun w => ¬ w ∈ fillerWords)

/-- `DeduplicationEngine._normalize_text` (the empty input short-circuit of
the Python code is subsumed: an empty string normalizes to the empty join). -/
def normalizeText (text : String) : String :=
  " ".intercalate (normalizeWords text)

/-- `DeduplicationEngine._clean_stories` on one story: the `clean_text`,
`clean_capability` and `clean_snippet` keys are added when the corresponding
source key is present. -/
def cleanStory (s : Story) : Story :=
  { s with
    cleanText := s.userStory.map normalizeText
    cleanCapability := s.capability.map normalizeText
    cleanSnippet := s.snippet.map normalizeText }

/-- `DeduplicationEngine._clean_stories`. -/
def cleanStoriesList (stories : List Story) : List Story :=
  stories.map cleanStory

/-! ### Pairwise similarity (`_are_stories_similar` and its components) -/

/-- `DeduplicationEngine._calculate_text_similarity`: Jaccard index over the
token sets of the two `clean_text` fields. -/
def calculateTextSimilarity (s1 s2 : Story) : ℚ :=
  let t1 := s1.cleanText.getD ""
  let t2 := s2.cleanText.getD ""
  if t1 = "" ∨ t2 = "" then 0
  else
    let w1 := (pySplit t1).toFinset
    let w2 := (pySplit t2).toFinset
    if w1.card = 0 ∨ w2.card = 0 then 0
    else
      let inter := (w1 ∩ w2).card
      let uni := (w1 ∪ w2).card
      if 0 < uni then (inter : ℚ) / (uni : ℚ) else 0

/-! `difflib.SequenceMatcher.ratio()` (Python standard library, called from
`_calculate_capability_similarity`).  Modelled from the library's documented
algorithm: recursively locate the longest matching block (first-leftmost on
ties), total the matched characters `M`, and return `2*M/(len1+len2)`.  The
junk/autojunk heuristic is not modelled; it is inactive for sequences shorter
than 200 characters, which covers every capability field the engine sees. -/

/-- Length of the longest common block of `a` and `b` that ends at positions
`i` (in `a`) and `j` (in `b`). -/
def backMatchLen (a b : List Char) : ℕ → ℕ → ℕ
  | i, j =>
    if a.getD i ' ' = b.getD j ' ' ∧ i < a.length ∧ j < b.length then
      match i, j with
      | 0, _ => 1
      | _ + 1, 0 => 1
      | i' + 1, j' + 1 => backMatchLen a b i' j' + 1
    else 0

/-- The longest matching block of `a` and `b` as `(start in a, start in b,
size)`, scanning end positions in lexicographic order and keeping the first
block of maximal size (difflib's `find_longest_match` tie-break). -/
def findLongestMatch (a b : List Char) : ℕ × ℕ × ℕ :=
  (List.range a.length).foldl
    (fun best i =>
      (List.range b.length).foldl
        (fun best j =>
          let k := backMatchLen a b i j
          if best.2.2 < k then (i + 1 - k, j + 1 - k, k) else best)
        best)
    (0, 0, 0)

/-- Total size of all matching blocks (difflib's `get_matching_blocks`,
reduced to the sum of block sizes), computed with explicit fuel. -/
def totalMatchSize : ℕ → List Char → List Char → ℕ
  | 0, _, _ => 0
  | fuel + 1, a, b =>
    let m := findLongestMatch a b
    if m.2.2 = 0 then 0
    else
      totalMatchSize fuel (a.take m.1) (b.take m.2.1) + m.2.2 +
        totalMatchSize fuel (a.drop (m.1 + m.2.2)) (b.drop (m.2.1 + m.2.2))

/-- `difflib.SequenceMatcher(None, a, b).ratio()`. -/
def seqMatchRatioStr (a b : String) : ℚ :=
  let la := a.data.length
  let lb := b.data.length
  if la + lb = 0 then 1
  else (2 * (totalMatchSize (la + lb + 1) a.data b.data) : ℚ) / ((la + lb : ℕ) : ℚ)

/-- `DeduplicationEngine._calculate_capability_similarity`. -/
def calculateCapabilitySimilarity (s1 s2 : Story) : ℚ :=
  let c1 := s1.cleanCapability.getD ""
  let c2 := s2.cleanCapability.getD ""
  if c1 = "" ∨ c2 = "" then 0
  else seqMatchRatioStr c1 c2

/-- `DeduplicationEngine._calculate_semantic_similarity`.  The TF-IDF
vectorizer and cosine product are sklearn library code, outside this
repository; that numeric kernel is the abstracted parameter `vec` (its
`try/except` fallback to `0.0` is likewise absorbed into `vec`).  The parts
written in `deduplication.py` — combining the cleaned text fields and the
empty-input short-circuit — are modelled exactly. -/
def calculateSemanticSimilarity (vec : String → String → ℚ) (s1 s2 : Story) : ℚ :=
  let t1 := (s1.cleanText.getD "") ++ " " ++ (s1.cleanCapability.getD "")
  let t2 := (s2.cleanText.getD "") ++ " " ++ (s2.cleanCapability.getD "")
  if stripStr t1 = "" ∨ stripStr t2 = "" then 0
  else vec t1 t2

/-- Default of the constructor argument `similarity_threshold: float = 0.7`. -/
def defaultSimilarityThreshold : ℚ := 0.7

/-- `DeduplicationEngine._are_stories_similar`: weighted combination of the
three component scores, compared inclusively against the threshold. -/
def areStoriesSimilar (vec : String → String → ℚ) (threshold : ℚ) (s1 s2 : Story) : Bool :=
  decide (threshold ≤
    calculateTextSimilarity s1 s2 * 0.4 +
    calculateCapabilitySimilarity s1 s2 * 0.4 +
    calculateSemanticSimilarity vec s1 s2 * 0.2)

/-! ### `DeduplicationEngine._find_duplicates`

The Python loop keeps a mutable `processed` set.  Within one outer iteration
the indices added to `processed` are exactly the `j`s already visited in that
same inner loop (each strictly smaller than the next `j` under test), so the
inner loop is equivalently a filter of the index range `i+1 .. n-1` against
the `processed` set as it stood when the iteration began; `dupStep` captures
that.  A produced group `i :: js` is ascending by construction, so the
`current_group.sort()` call of the Python code is the identity on it. -/

/-- One outer iteration of `_find_duplicates`, started at unprocessed index
`i`: the group seeded by `i` (note: every `j` is compared against story `i`,
the seed, only). -/
def dupStep (sim : Story → Story → Bool) (stories : List Story) (i : ℕ)
    (processed : List ℕ) : List ℕ :=
  i :: (List.range stories.length).filter
    (fun j => i < j ∧ ¬ processed.contains j ∧
      sim (stories.getD i default) (stories.getD j default) = true)

/-- The outer loop of `_find_duplicates` over the remaining index list. -/
def findDupGo (sim : Story → Story → Bool) (stories : List Story) :
    List ℕ → List ℕ → List (List ℕ)
  | [], _ => []
  | i :: is, processed =>
    if processed.contains i then findDupGo sim stories is processed
    else
      let g := dupStep sim stories i processed
      if 1 < g.length then g :: findDupGo sim stories is (processed ++ g)
      else findDupGo sim stories is (processed ++ g)

/-- `DeduplicationEngine._find_duplicates`.  The final
`duplicate_groups.sort(key=lambda x: x[0])` is kept as a stable sort on the
head element (it is a no-op: groups are emitted with increasing seeds). -/
def findDuplicates (sim : Story → Story → Bool) (stories : List Story) : List (List ℕ) :=
  (findDupGo sim stories (List.range stories.length) []).mergeSort
    (fun g1 g2 => decide (g1.headD 0 ≤ g2.headD 0))

/-! ### `DeduplicationEngine._merge_text_fields` and `_merge_story_group` -/

/-- Appends the sentences of `text` that are not yet a substring of the
accumulated text (the inner loop of `_merge_text_fields`). -/
def addUniqueSentences (merged text : String) : String :=
  (splitOnDot text.data []).foldl
    (fun acc sentence =>
      let s := stripStr sentence
      if s ≠ "" ∧ ¬ containsSub acc s then acc ++ ". " ++ s else acc)
    merged

/-- `DeduplicationEngine._merge_text_fields`: keep the longest text (stable
descending length sort, as `sorted(texts, key=len, reverse=True)`), then add
unseen sentences from the shorter ones. -/
def mergeTextFields (texts : List String) : String :=
  let texts := texts.filter (fun t => ¬ stripStr t = "")
  match texts with
  | [] => ""
  | [t] => t
  | _ =>
    let sortedTexts := texts.mergeSort (fun a b => decide (b.data.length ≤ a.data.length))
    let longest := sortedTexts.headD ""
    (sortedTexts.drop 1).foldl
      (fun merged t => if t ≠ longest then addUniqueSentences merged t else merged)
      longest

/-- Sorted deduplicated list: Python `sorted(list(set(xs)))` for strings.
(`set` iteration order is unspecified, but `sorted` of it is the unique
ascending enumeration of the distinct elements, which `dedup` + stable sort
also produces.) -/
def sortedSet (xs : List String) : List String :=
  xs.dedup.mergeSort strLe

/-- Canonical merge-provenance string of `_generate_merge_hash`: the sorted
member identifiers joined with `|`.  (The Python code returns the md5 hex
digest of this string; the digest is modelled by its preimage.) -/
def generateMergeHash (group : List Story) : String :=
  "|".intercalate ((group.map idKey).mergeSort strLe)

/-- `DeduplicationEngine._merge_story_group`. -/
def mergeStoryGroup (group : List Story) : Story :=
  match group.mergeSort idLe with
  | [] => {}
  | base :: rest =>
    let sortedGroup := base :: rest
    { base with
      userStory := some (mergeTextFields (sortedGroup.map (fun s => s.userStory.getD "")))
      capability := some (mergeTextFields (sortedGroup.map (fun s => s.capability.getD "")))
      snippet := some (mergeTextFields (sortedGroup.map (fun s => s.snippet.getD "")))
      tags := some (sortedSet (sortedGroup.flatMap (fun s => s.tags.getD [])))
      requirements := some (sortedSet (sortedGroup.flatMap (fun s => s.requirements.getD [])))
      acceptanceCriteria :=
        some (sortedSet (sortedGroup.flatMap (fun s => s.acceptanceCriteria.getD [])))
      sourceFiles := some ((sortedGroup.filterMap
        (fun s => if truthyStr s.source then some (s.source.getD "") else none)).mergeSort strLe)
      duplicateCount := some sortedGroup.length
      matchScore := some (pyRound3
        ((sortedGroup.map (fun s => s.matchScore.getD 0.5)).sum / (sortedGroup.length : ℚ)))
      mergeHash := some (generateMergeHash sortedGroup) }

/-- `DeduplicationEngine._merge_duplicates`.  Groups of length 1 are skipped
(`continue`), the remaining indices pass through unchanged, and the combined
list is stably sorted by original position, unmergeable entries (not found in
`stories`) keyed `999999` — exactly the Python
`merged_stories.sort(key=lambda x: stories.index(x) if x in stories else 999999)`. -/
def mergeDuplicates (stories : List Story) (groups : List (List ℕ)) : List Story :=
  let active := groups.filter (fun g => g.length ≠ 1)
  let mergedPart := active.map (fun g => mergeStoryGroup (g.filterMap (stories.get? ·)))
  let mergedIdx := active.flatten
  let singles := ((List.range stories.length).filter
    (fun i => ¬ mergedIdx.contains i)).map (fun i => stories.getD i default)
  (mergedPart ++ singles).mergeSort
    (fun a b =>
      decide ((if stories.contains a then stories.indexOf a else 999999) ≤
        (if stories.contains b then stories.indexOf b else 999999)))

/-! ### Scoring (`_calculate_quality_score`, `_calculate_completeness_score`,
`_calculate_final_scores`) -/

/-- Benefit clause of `re.search(r'so that (.+)', text)`: scan left to right
for an occurrence of `"so that "` followed by at least one non-newline
character, and return the (greedy, single-line) group. -/
def benefitGroup : List Char → Option (List Char)
  | [] => none
  | c :: rest =>
    if "so that ".data.isPrefixOf (c :: rest) then
      let grp := ((c :: rest).drop 8).takeWhile (fun ch => ch ≠ '\n')
      if grp.length = 0 then benefitGroup rest else some grp
    else benefitGroup rest

/-- The condition `benefit_match and len(benefit_match.group(1)) > 10` of
`_calculate_quality_score`, over the lower-cased story text. -/
def benefitLenOk (us : String) : Bool :=
  match benefitGroup us.data with
  | some grp => decide (10 < grp.length)
  | none => false

/-- `DeduplicationEngine._calculate_quality_score` (the four `score += …`
steps written as one sum of guarded increments). -/
def calculateQualityScore (s : Story) : ℚ :=
  min (0.5 +
    (if containsSub (lowerStr (s.userStory.getD "")) "as a" ∧
        containsSub (lowerStr (s.userStory.getD "")) "i need" ∧
        containsSub (lowerStr (s.userStory.getD "")) "so that" then (0.2 : ℚ) else 0) +
    (if 20 < (s.capability.getD "").data.length then (0.1 : ℚ) else 0) +
    (if benefitLenOk (lowerStr (s.userStory.getD "")) then (0.1 : ℚ) else 0) +
    (if truthyList s.tags ∧ 1 < (s.tags.getD []).length then (0.1 : ℚ) else 0)) 1

/-- `DeduplicationEngine._calculate_completeness_score` (the two field loops
written as one sum of guarded increments; `story.get(f)` truthiness is
non-emptiness of the string or list). -/
def calculateCompletenessScore (s : Story) : ℚ :=
  min (0.5 +
    ((if truthyStr s.userStory then (0.1 : ℚ) else 0) +
     (if truthyStr s.capability then (0.1 : ℚ) else 0) +
     (if truthyStr s.category then (0.1 : ℚ) else 0) +
     (if truthyStr s.priority then (0.1 : ℚ) else 0)) +
    ((if truthyStr s.snippet then (0.05 : ℚ) else 0) +
     (if truthyList s.tags then (0.05 : ℚ) else 0) +
     (if truthyList s.requirements then (0.05 : ℚ) else 0) +
     (if truthyList s.acceptanceCriteria then (0.05 : ℚ) else 0))) 1

/-- The per-story body of `_calculate_final_scores`. -/
def applyFinalScore (s : Story) : Story :=
  { s with matchScore := some (pyRound3
      (s.matchScore.getD 0.5 * 0.5 +
       calculateQualityScore s * 0.3 +
       calculateCompletenessScore s * 0.2)) }

/-- Boolean comparison for the output sort
`scored_stories.sort(key=lambda x: (-x.get('Match Score', 0), x.get('User Story ID', '')))`. -/
def finalLe (a b : Story) : Bool :=
  decide (b.matchScore.getD 0 < a.matchScore.getD 0 ∨
    (a.matchScore.getD 0 = b.matchScore.getD 0 ∧ idKey a ≤ idKey b))

/-- The pipeline body of `deduplicate_and_score` applied to the ID-sorted
story list. -/
def dedupCore (vec : String → String → ℚ) (threshold : ℚ) (sortedSto : List Story) :
    List Story :=
  let cleaned := cleanStoriesList sortedSto
  let groups := findDuplicates (areStoriesSimilar vec threshold) cleaned
  let merged := mergeDuplicates cleaned groups
  (merged.map applyFinalScore).mergeSort finalLe

/-- `DeduplicationEngine.deduplicate_and_score` (the `await`-free data path:
empty-input short-circuit, canonical ID sort, clean, group, merge, score,
final ordering). -/
def deduplicateAndScore (vec : String → String → ℚ) (threshold : ℚ)
    (stories : List Story) : List Story :=
  if stories = [] then [] else dedupCore vec threshold (stories.mergeSort idLe)

/-! ### The same pipeline with a fallible group merge

`_merge_story_group` can raise at run time (for example `set(all_requirements)`
raises `TypeError` as soon as one member's `requirements` list holds an
unhashable value), and neither `_merge_duplicates` nor `deduplicate_and_score`
installs an exception handler, so such an error propagates to the caller.  To
state claims about that control flow the group-merge callee is abstracted as a
fallible function `mergeG`; `Except.error` models a raised exception. -/

/-- `_merge_duplicates` with the group-merge callee fallible: the `mapM`
mirrors the sequential group loop, where the first raise aborts the whole
call (there is no `try/except` in the Python function). -/
def mergeDuplicatesE (mergeG : List Story → Except String Story)
    (stories : List Story) (groups : List (List ℕ)) : Except String (List Story) := do
  let active := groups.filter (fun g => g.length ≠ 1)
  let mergedPart ← active.mapM (fun g => mergeG (g.filterMap (stories.get? ·)))
  let mergedIdx := active.flatten
  let singles := ((List.range stories.length).filter
    (fun i => ¬ mergedIdx.contains i)).map (fun i => stories.getD i default)
  pure ((mergedPart ++ singles).mergeSort
    (fun a b =>
      decide ((if stories.contains a then stories.indexOf a else 999999) ≤
        (if stories.contains b then stories.indexOf b else 999999))))

/-- `deduplicate_and_score` with the fallible group merge: no handler exists
anywhere on the path, so a group-merge error is the result of the whole call. -/
def deduplicateAndScoreE (vec : String → String → ℚ) (threshold : ℚ)
    (mergeG : List Story → Except String Story) (stories : List Story) :
    Except String (List Story) :=
  if stories = [] then .ok []
  else do
    let sortedSto := stories.mergeSort idLe
    let cleaned := cleanStoriesList sortedSto
    let groups := findDuplicates (areStoriesSimilar vec threshold) cleaned
    let merged ← mergeDuplicatesE mergeG cleaned groups
    pure ((merged.map applyFinalScore).mergeSort finalLe)

/-! ### `ConsistencyChecker` (`consistency_checker.py`)

The filesystem cache directory is modelled as a map from input-hash keys to
cached records; `md5(json.dumps(..., sort_keys=True))` output hashes are
modelled by their canonical preimage data (the digest plus the fixed-shape
JSON serialization are injective up to md5 collisions, and no claim depends
on the hex spelling of a digest). -/

/-- The reduced per-story record hashed by `_generate_output_hash`:
`{id, story, category, priority, score, sorted tags, content_hash}`. -/
structure OutRecord where
  id : String
  story : String
  category : String
  priority : String
  score : ℚ
  tags : List String
  outContentHash : String
deriving DecidableEq, Repr

/-- The reduction step inside `_generate_output_hash` (defaults as in the
Python `story.get(...)` calls; tags sorted). -/
def reduceStory (s : Story) : OutRecord :=
  { id := idKey s
    story := s.userStory.getD ""
    category := s.category.getD ""
    priority := s.priority.getD ""
    score := s.matchScore.getD 0
    tags := (s.tags.getD []).mergeSort strLe
    outContentHash := s.contentHash.getD "" }

/-- `ConsistencyChecker._generate_output_hash`: stories sorted by
`User Story ID`, reduced, then digested (digest modelled by its canonical
preimage list). -/
def generateOutputHash (stories : List Story) : List OutRecord :=
  (stories.mergeSort idLe).map reduceStory

/-- `ConsistencyChecker._text_similarity`: character-position matches over
the lower-cased strings, divided by the longer length. -/
def ccTextSimilarity (t1 t2 : String) : ℚ :=
  if t1 = "" ∨ t2 = "" then 0
  else
    let a := (lowerStr t1).data
    let b := (lowerStr t2).data
    if a = b then 1
    else
      let maxLen := max a.length b.length
      if maxLen = 0 then 1
      else ((a.zip b).countP (fun p => p.1 = p.2) : ℚ) / (maxLen : ℚ)

/-- Per-field comparison of `_calculate_story_similarity` for the three
string-valued fields (`val1 == val2` first, then the both-truthy text
comparison, else `0.0`). -/
def ccFieldSimStr (v1 v2 : String) : ℚ :=
  if v1 = v2 then 1
  else if v1 ≠ "" ∧ v2 ≠ "" then ccTextSimilarity v1 v2
  else 0

/-- Per-field comparison of `_calculate_story_similarity` for `Match Score`:
a missing score reads as the string default `''`, so a mixed
(number, string) pair falls through every branch to `0.0`; two numbers get
the relative-difference similarity. -/
def ccFieldSimScore (v1 v2 : Option ℚ) : ℚ :=
  match v1, v2 with
  | some a, some b =>
    if a = b then 1
    else if a = 0 ∧ b = 0 then 1
    else
      let m := max |a| |b|
      if m = 0 then 1 else max 0 (1 - |a - b| / m)
  | none, none => 1
  | some _, none => 0
  | none, some _ => 0

/-- `ConsistencyChecker._calculate_story_similarity` over the four compared
fields (`User Story`, `Category`, `Priority`, `Match Score`). -/
def ccStorySimilarity (s1 s2 : Story) : ℚ :=
  ([ccFieldSimStr (s1.userStory.getD "") (s2.userStory.getD ""),
    ccFieldSimStr (s1.category.getD "") (s2.category.getD ""),
    ccFieldSimStr (s1.priority.getD "") (s2.priority.getD ""),
    ccFieldSimScore s1.matchScore s2.matchScore].sum) / 4

/-- The `next((s for s in stories if s.get('User Story ID') == story_id), None)`
lookups: note the comparison is against the raw `get` (no default), so only a
present, equal identifier matches. -/
def findById (stories : List Story) (sid : String) : Option Story :=
  stories.find? (fun s => s.userStoryId = some sid)

/-- Identifier set of a story list (`{s.get('User Story ID', '') for s in l}`). -/
def ccIds (stories : List Story) : Finset String :=
  (stories.map (fun s => s.userStoryId.getD "")).toFinset

/-- `ConsistencyChecker._calculate_consistency_score`.  Iteration over the
Python `set` of common identifiers is order-insensitive here (only a sum and
a count are taken), so it is modelled by a `Finset` sum. -/
def ccConsistencyScore (cached current : List Story) : ℚ :=
  if cached = [] ∨ current = [] then 0
  else
    let commonIds := ccIds cached ∩ ccIds current
    let totalIds := ccIds cached ∪ ccIds current
    if totalIds = ∅ then 0
    else
      let idScore : ℚ := (commonIds.card : ℚ) / (totalIds.card : ℚ)
      let found := commonIds.filter
        (fun sid => (findById cached sid).isSome ∧ (findById current sid).isSome)
      let contentSim : ℚ :=
        if found ≠ ∅ then
          (found.sum (fun sid => ccStorySimilarity
            ((findById cached sid).getD default) ((findById current sid).getD default))) /
            (found.card : ℚ)
        else 0
      pyRound3 (idScore * 0.6 + contentSim * 0.4)

/-- The structured diff of `_identify_differences`.  Python materializes the
`added`/`removed`/`changed` collections by iterating hash sets, whose order
is an implementation artifact; the model lists them in ascending order. -/
structure CCDiff where
  addedStories : ℕ
  removedStories : ℕ
  commonStories : ℕ
  totalChanges : ℕ
  changedStories : List (String × ℚ × Story × Story)
  addedIds : List String
  removedIds : List String
  significantlyChanged : ℕ
deriving Repr

/-- `ConsistencyChecker._identify_differences` (0.9 significance threshold). -/
def ccIdentifyDifferences (cached current : List Story) : CCDiff :=
  let addedIds := ccIds current \ ccIds cached
  let removedIds := ccIds cached \ ccIds current
  let commonIds := ccIds cached ∩ ccIds current
  let changed := (commonIds.sort (· ≤ ·)).filterMap
    (fun sid =>
      match findById cached sid, findById current sid with
      | some cs, some cur =>
        let sim := ccStorySimilarity cs cur
        if sim < 0.9 then some (sid, sim, cs, cur) else none
      | _, _ => none)
  { addedStories := addedIds.card
    removedStories := removedIds.card
    commonStories := commonIds.card
    totalChanges := addedIds.card + removedIds.card
    changedStories := changed
    addedIds := addedIds.sort (· ≤ ·)
    removedIds := removedIds.sort (· ≤ ·)
    significantlyChanged := changed.length }

/-- One cached run, as written by `cache_output` (`{timestamp, output_hash,
stories, metadata, story_count}`). -/
structure CacheRecord where
  timestamp : String
  outputHash : List OutRecord
  stories : List Story
  metadata : List (String × String)
  storyCount : ℕ

/-- The consistency-cache directory: one optional record per input hash. -/
def CCache : Type := String → Option CacheRecord

/-- The result dict of `check_consistency`. -/
structure CCResult where
  isConsistent : Bool
  message : String
  previousRun : Option String
  consistencyScore : ℚ
  cachedHash : Option (List OutRecord)
  currentHash : List OutRecord
  differences : Option CCDiff

/-- `ConsistencyChecker.check_consistency`. -/
def checkConsistency (cache : CCache) (inputHash : String)
    (outputStories : List Story) : CCResult :=
  match cache inputHash with
  | some rec =>
    let currentHash := generateOutputHash outputStories
    if rec.outputHash = currentHash then
      { isConsistent := true
        message := "Output matches previous run exactly"
        previousRun := some rec.timestamp
        consistencyScore := 1
        cachedHash := some rec.outputHash
        currentHash := currentHash
        differences := none }
    else
      { isConsistent := false
        message := "Output differs from previous run"
        previousRun := some rec.timestamp
        consistencyScore := ccConsistencyScore rec.stories outputStories
        cachedHash := some rec.outputHash
        currentHash := currentHash
        differences := some (ccIdentifyDifferences rec.stories outputStories) }
  | none =>
    { isConsistent := true
      message := "First run with this input - no previous data to compare"
      previousRun := none
      consistencyScore := 1
      cachedHash := none
      currentHash := generateOutputHash outputStories
      differences := none }

/-- `ConsistencyChecker.cache_output`: writes the record for `input_hash`,
leaving every other cache key unchanged (`timestamp` is the wall clock,
passed in; `metadata or {}` is the `getD []`). -/
def cacheOutput (cache : CCache) (inputHash : String) (outputStories : List Story)
    (timestamp : String) (metadata : Option (List (String × String))) : CCache :=
  fun k =>
    if k = inputHash then
      some { timestamp := timestamp
             outputHash := generateOutputHash outputStories
             stories := outputStories
             metadata := metadata.getD []
             storyCount := outputStories.length }
    else cache k

/-! ### `VectorProcessor` (`vector_processor.py`)

Embedding generation and numpy cosine arithmetic live behind the Vertex AI
client; they are abstracted as the optional query embedding `queryEmb`
(`none` when `self.embedding_model` is unavailable) and the numeric kernel
`cosSim`.  The chunk-side control flow is modelled exactly. -/

/-- One vectorized chunk (`metadata.filename` / `metadata.chunk_index`
flattened into fields). -/
structure Chunk where
  cid : String
  text : String
  embedding : Option (List ℚ)
  mFilename : String
  mChunkIndex : ℕ
deriving DecidableEq, Repr, Inhabited

/-- `VectorProcessor.find_similar_chunks`.  With no embedding model (or an
empty pool) it returns the first `top_k` chunks unranked; otherwise it keeps
only chunks that carry a non-empty embedding, sorts them by `cosSim` against
the query embedding (descending, stable) and takes the top `top_k` — so a
pool without embeddings yields the empty list. -/
def findSimilarChunks (cosSim : List ℚ → List ℚ → ℚ) (queryEmb : Option (List ℚ))
    (chunks : List Chunk) (topK : ℕ) : List Chunk :=
  match queryEmb with
  | none => chunks.take topK
  | some q =>
    if chunks = [] then chunks.take topK
    else
      let sims := (chunks.filter (fun c => c.embedding.getD [] ≠ [])).map
        (fun c => (cosSim q (c.embedding.getD []), c))
      let sorted := sims.mergeSort (fun a b => decide (b.1 ≤ a.1))
      (sorted.take topK).map (fun p => p.2)

/-- `VectorProcessor.get_context_for_extraction`: the top matches plus up to
two index-adjacent chunks from the same source file, deduplicated against the
already selected context, capped at `2 * context_window`. -/
def getContextForExtraction (cosSim : List ℚ → List ℚ → ℚ) (queryEmb : Option (List ℚ))
    (chunks : List Chunk) (contextWindow : ℕ) : List Chunk :=
  if chunks = [] then []
  else
    let similar := findSimilarChunks cosSim queryEmb chunks contextWindow
    let ctx := similar.foldl
      (fun acc c =>
        let acc := acc ++ [c]
        let same := chunks.filter (fun c2 => c2.mFilename = c.mFilename)
        let lo := c.mChunkIndex - 1
        let hi := min same.length (c.mChunkIndex + 2)
        ((List.range hi).drop lo).foldl
          (fun acc2 i =>
            if i ≠ c.mChunkIndex ∧ ¬ acc2.contains (same.getD i default) then
              acc2 ++ [same.getD i default]
            else acc2)
          acc)
      []
    ctx.take (contextWindow * 2)

/-- Modelled from the spec: the `ContextRetriever` fallback ranking the spec
prescribes when chunks lack embeddings — "rank by simple word-overlap count
(number of query words present in the chunk text), descending; ties broken by
chunk index ascending" — returning the top `k`.  (Word presence is the
substring test used by the neighbouring word-overlap code in
`requirements_converter.py`.)  No function in `vector_processor.py`
implements this; the definition exists to compare the spec against the code.
The ranking is by a total order (count descending, index ascending), so any
sorting algorithm yields the same list; a structural insertion sort is used. -/
def specChunkInsert (le : Chunk → Chunk → Bool) (c : Chunk) : List Chunk → List Chunk
  | [] => [c]
  | d :: rest => if le c d then c :: d :: rest else d :: specChunkInsert le c rest

/-- Insertion sort over chunks for the spec-side ranking. -/
def specChunkSort (le : Chunk → Chunk → Bool) : List Chunk → List Chunk
  | [] => []
  | c :: rest => specChunkInsert le c (specChunkSort le rest)

/-- Modelled from the spec: the word-overlap top-K ranking itself. -/
def specWordOverlapTopK (query : String) (chunks : List Chunk) (k : ℕ) : List Chunk :=
  let qWords := pySplit (lowerStr query)
  let overlap := fun c => (qWords.filter (fun w => containsSub (lowerStr c.text) w)).length
  (specChunkSort (fun a b =>
      decide (overlap b < overlap a ∨
        (overlap a = overlap b ∧ a.mChunkIndex ≤ b.mChunkIndex))) chunks).take k

/-! ### Helper lemmas: canonical sorting -/

theorem idLe_trans : ∀ (a b c : Story), idLe a b → idLe b c → idLe a c := by
  intro a b c h1 h2
  simp only [idLe, decide_eq_true_eq] at *
  exact le_trans h1 h2

theorem idLe_total : ∀ (a b : Story), idLe a b || idLe b a := by
  intro a b
  simp only [idLe]
  rcases le_total (idKey a) (idKey b) with h | h <;> simp [h]

/-- Two sorted lists that are permutations of each other and whose key lists
are duplicate-free are equal. -/
theorem sortedKeyEqOfPerm {α : Type} (key : α → String) :
    ∀ (l₁ l₂ : List α), l₁.Perm l₂ →
      l₁.Pairwise (fun a b => key a ≤ key b) →
      l₂.Pairwise (fun a b => key a ≤ key b) →
      (l₁.map key).Nodup → l₁ = l₂ := by
  intro l₁
  induction l₁ with
  | nil =>
    intro l₂ hp _ _ _
    exact (hp.nil_eq).symm ▸ rfl
  | cons a t ih =>
    intro l₂ hp hs₁ hs₂ hnd
    match l₂ with
    | [] => exact absurd hp.symm.nil_eq (by simp)
    | b :: t₂ =>
      have hnd' : key a ∉ t.map key ∧ (t.map key).Nodup := by
        rw [List.map_cons, List.nodup_cons] at hnd
        exact hnd
      have hab : a = b := by
        by_contra hne
        have hbt : b ∈ t := by
          have : b ∈ a :: t := hp.symm.subset (List.mem_cons_self b t₂)
          rcases List.mem_cons.1 this with h | h
          · exact absurd h.symm hne
          · exact h
        have hat₂ : a ∈ t₂ := by
          have : a ∈ b :: t₂ := hp.subset (List.mem_cons_self a t)
          rcases List.mem_cons.1 this with h | h
          · exact absurd h hne
          · exact h
        have h1 : key a ≤ key b := List.rel_of_pairwise_cons hs₁ hbt
        have h2 : key b ≤ key a := List.rel_of_pairwise_cons hs₂ hat₂
        have hkey : key a = key b := le_antisymm h1 h2
        exact hnd'.1 (hkey ▸ List.mem_map_of_mem key hbt)
      subst hab
      have htp : t.Perm t₂ := hp.cons_inv
      have := ih t₂ htp (List.Pairwise.of_cons hs₁) (List.Pairwise.of_cons hs₂) hnd'.2
      rw [this]

/-- With duplicate-free identifiers, the canonical ID sort of any two
permutations of the same story list coincides. -/
theorem mergeSortId_eq_of_perm (S T : List Story) (hp : S.Perm T)
    (hnd : (S.map idKey).Nodup) :
    S.mergeSort idLe = T.mergeSort idLe := by
  apply sortedKeyEqOfPerm idKey
  · exact (List.mergeSort_perm S idLe).trans (hp.trans (List.mergeSort_perm T idLe).symm)
  · exact (List.sorted_mergeSort idLe_trans idLe_total S).imp
      (fun h => by simpa [idLe, decide_eq_true_eq] using h)
  · exact (List.sorted_mergeSort idLe_trans idLe_total T).imp
      (fun h => by simpa [idLe, decide_eq_true_eq] using h)
  · exact ((List.mergeSort_perm S idLe).map idKey).nodup_iff.2 hnd

/-! ### Helper lemmas: rounding bounds -/

theorem rne_ge (q : ℚ) : q - 1/2 ≤ (rne q : ℚ) := by
  have h1 : (⌊q⌋ : ℚ) ≤ q := Int.floor_le q
  have h2 : q < (⌊q⌋ : ℚ) + 1 := Int.lt_floor_add_one q
  unfold rne
  split_ifs <;> push_cast <;> linarith

theorem rne_le (q : ℚ) : (rne q : ℚ) ≤ q + 1/2 := by
  have h1 : (⌊q⌋ : ℚ) ≤ q := Int.floor_le q
  unfold rne
  split_ifs <;> push_cast <;> linarith

/-- `round(x, 3)` stays inside `[0, 1]` whenever `x` does. -/
theorem pyRound3_mem_unit {q : ℚ} (h0 : 0 ≤ q) (h1 : q ≤ 1) :
    0 ≤ pyRound3 q ∧ pyRound3 q ≤ 1 := by
  have hge : (1000 : ℚ) * q - 1/2 ≤ (rne (q * 1000) : ℚ) := by
    have := rne_ge (q * 1000); linarith
  have hle : (rne (q * 1000) : ℚ) ≤ 1000 * q + 1/2 := by
    have := rne_le (q * 1000); linarith
  have hz0 : (0 : ℤ) ≤ rne (q * 1000) := by
    have hq : (-1 : ℚ) < (rne (q * 1000) : ℚ) := by linarith
    have : (-1 : ℤ) < rne (q * 1000) := by exact_mod_cast hq
    omega
  have hz1 : rne (q * 1000) ≤ 1000 := by
    have hq : (rne (q * 1000) : ℚ) < 1001 := by linarith
    have : rne (q * 1000) < (1001 : ℤ) := by exact_mod_cast hq
    omega
  constructor
  · unfold pyRound3
    have : (0 : ℚ) ≤ (rne (q * 1000) : ℚ) := by exact_mod_cast hz0
    positivity
  · unfold pyRound3
    rw [div_le_one (by norm_num)]
    exact_mod_cast hz1

/-! ### Helper lemmas: score bounds -/

/-- The per-candidate confidence constraint of the claims: the stored
`Match Score` (read with the engine's `0.5` default) lies in `[0, 1]`. -/
def scoreOk (s : Story) : Prop :=
  0 ≤ s.matchScore.getD 0.5 ∧ s.matchScore.getD 0.5 ≤ 1

instance (s : Story) : Decidable (scoreOk s) := by
  unfold scoreOk; infer_instance

theorem sum_bounds_unit (l : List ℚ) (h : ∀ x ∈ l, 0 ≤ x ∧ x ≤ 1) :
    0 ≤ l.sum ∧ l.sum ≤ (l.length : ℚ) := by
  induction l with
  | nil => simp
  | cons a t ih =>
    have ha := h a (by simp)
    have ht := ih (fun x hx => h x (by simp [hx]))
    simp only [List.sum_cons, List.length_cons]
    push_cast
    constructor <;> linarith [ha.1, ha.2, ht.1, ht.2]

theorem qualityScore_mem_unit (s : Story) :
    0 ≤ calculateQualityScore s ∧ calculateQualityScore s ≤ 1 := by
  unfold calculateQualityScore
  refine ⟨le_min ?_ (by norm_num), min_le_right _ _⟩
  split_ifs <;> norm_num

theorem completenessScore_mem_unit (s : Story) :
    0 ≤ calculateCompletenessScore s ∧ calculateCompletenessScore s ≤ 1 := by
  unfold calculateCompletenessScore
  refine ⟨le_min ?_ (by norm_num), min_le_right _ _⟩
  split_ifs <;> norm_num

/-! ### Helper lemmas: structure of the duplicate groups -/

theorem contains_eq_decide_mem {α : Type} [DecidableEq α] (l : List α) (x : α) :
    l.contains x = decide (x ∈ l) := by
  simp [List.contains]

theorem dupStep_head_mem (sim : Story → Story → Bool) (stories : List Story)
    (i : ℕ) (processed : List ℕ) : i ∈ dupStep sim stories i processed :=
  List.mem_cons_self i _

theorem dupStep_nodup (sim : Story → Story → Bool) (stories : List Story)
    (i : ℕ) (processed : List ℕ) : (dupStep sim stories i processed).Nodup := by
  unfold dupStep
  refine List.nodup_cons.2 ⟨?_, List.Nodup.filter _ (List.nodup_range _)⟩
  intro hmem
  have := (List.mem_filter.1 hmem).2
  simp only [decide_eq_true_eq] at this
  exact absurd this.1 (lt_irrefl i)

theorem dupStep_mem_spec (sim : Story → Story → Bool) (stories : List Story)
    (i : ℕ) (processed : List ℕ) (x : ℕ)
    (hx : x ∈ dupStep sim stories i processed) :
    x = i ∨ (x < stories.length ∧ ¬ processed.contains x) := by
  rcases List.mem_cons.1 hx with h | h
  · exact Or.inl h
  · right
    have h1 := List.mem_range.1 (List.mem_filter.1 h).1
    have h2 := (List.mem_filter.1 h).2
    simp only [decide_eq_true_eq] at h2
    exact ⟨h1, h2.2.1⟩

/-- Invariant of the `_find_duplicates` outer loop: the emitted groups are
pairwise disjoint and duplicate-free, their members are in-range indices not
yet processed on entry, and every emitted group has at least two members. -/
theorem findDupGo_inv (sim : Story → Story → Bool) (stories : List Story) :
    ∀ (is : List ℕ) (processed : List ℕ), (∀ i ∈ is, i < stories.length) →
      (findDupGo sim stories is processed).flatten.Nodup ∧
      (∀ x ∈ (findDupGo sim stories is processed).flatten,
        x < stories.length ∧ ¬ processed.contains x) ∧
      (∀ g ∈ findDupGo sim stories is processed, 2 ≤ g.length) := by
  intro is
  induction is with
  | nil => intro processed _; simp [findDupGo]
  | cons i rest ih =>
    intro processed hlt
    have hlt' : ∀ j ∈ rest, j < stories.length := fun j hj => hlt j (by simp [hj])
    rw [findDupGo]
    by_cases hc : processed.contains i
    · simp only [hc, if_true]
      exact ih processed hlt'
    · simp only [hc, if_false, Bool.false_eq_true]
      have hgspec : ∀ x ∈ dupStep sim stories i processed,
          x < stories.length ∧ ¬ processed.contains x := by
        intro x hx
        rcases dupStep_mem_spec sim stories i processed x hx with rfl | h
        · exact ⟨hlt x (by simp), hc⟩
        · exact h
      have ihg := ih (processed ++ dupStep sim stories i processed) hlt'
      have hrest_not_ing : ∀ x ∈ (findDupGo sim stories rest
          (processed ++ dupStep sim stories i processed)).flatten,
          (x < stories.length ∧ ¬ processed.contains x) ∧
            x ∉ dupStep sim stories i processed := by
        intro x hx
        have h2 := (ihg.2.1 x hx)
        have hx2 : x ∉ processed ++ dupStep sim stories i processed := by
          intro hm
          exact h2.2 (by simp [contains_eq_decide_mem, hm])
        rw [List.mem_append] at hx2
        push_neg at hx2
        exact ⟨⟨h2.1, fun hc => hx2.1 (by simpa [contains_eq_decide_mem] using hc)⟩, hx2.2⟩
      by_cases hlen : 1 < (dupStep sim stories i processed).length
      · simp only [hlen, if_true]
        refine ⟨?_, ?_, ?_⟩
        · rw [List.flatten_cons, List.nodup_append]
          refine ⟨dupStep_nodup sim stories i processed, ihg.1, ?_⟩
          intro x hx hx'
          exact (hrest_not_ing x hx').2 hx
        · intro x hx
          rw [List.flatten_cons, List.mem_append] at hx
          rcases hx with hx | hx
          · exact hgspec x hx
          · exact (hrest_not_ing x hx).1
        · intro g hg
          rcases List.mem_cons.1 hg with rfl | hg
          · omega
          · exact ihg.2.2 g hg
      · simp only [hlen, if_false]
        refine ⟨ihg.1, ?_, ihg.2.2⟩
        intro x hx
        exact (hrest_not_ing x hx).1

/-- The invariants carried over to `findDuplicates` (the final stable sort of
the group list is a permutation, so it preserves all three). -/
theorem findDuplicates_inv (sim : Story → Story → Bool) (stories : List Story) :
    (findDuplicates sim stories).flatten.Nodup ∧
    (∀ x ∈ (findDuplicates sim stories).flatten, x < stories.length) ∧
    (∀ g ∈ findDuplicates sim stories, 2 ≤ g.length) := by
  have hbase := findDupGo_inv sim stories (List.range stories.length) []
    (fun i hi => List.mem_range.1 hi)
  have hperm : (findDuplicates sim stories).Perm
      (findDupGo sim stories (List.range stories.length) []) :=
    List.mergeSort_perm _ _
  have hflat := hperm.flatten
  refine ⟨hflat.nodup_iff.2 hbase.1, ?_, ?_⟩
  · intro x hx
    exact (hbase.2.1 x (hflat.subset hx)).1
  · intro g hg
    exact hbase.2.2 g (hperm.subset hg)

/-! ### Helper lemmas: counting the merged indices -/

theorem length_filter_split {α : Type} (l : List α) (p : α → Bool) :
    (l.filter p).length + (l.filter (fun a => ¬ p a)).length = l.length := by
  induction l with
  | nil => rfl
  | cons a t ih => by_cases h : p a <;> simp [List.filter_cons, h, ← ih] <;> omega

theorem filter_contains_range_length (l : List ℕ) (n : ℕ) (hnd : l.Nodup)
    (hlt : ∀ x ∈ l, x < n) :
    ((List.range n).filter (fun i => l.contains i)).length = l.length := by
  have hperm : ((List.range n).filter (fun i => l.contains i)).Perm l := by
    apply List.perm_of_nodup_nodup_toFinset_eq
    · exact (List.nodup_range n).filter _
    · exact hnd
    · ext x
      simp [List.mem_filter, List.mem_range, contains_eq_decide_mem]
      intro hx
      exact hlt x hx
  exact hperm.length_eq

theorem filter_not_contains_range_length (l : List ℕ) (n : ℕ) (hnd : l.Nodup)
    (hlt : ∀ x ∈ l, x < n) :
    ((List.range n).filter (fun i => ¬ l.contains i)).length = n - l.length := by
  have h1 := length_filter_split (List.range n) (fun i => l.contains i)
  have h2 := filter_contains_range_length l n hnd hlt
  rw [List.length_range] at h1
  omega

theorem nodup_lt_length_le (l : List ℕ) (n : ℕ) (hnd : l.Nodup)
    (hlt : ∀ x ∈ l, x < n) : l.length ≤ n := by
  have hsub : l ⊆ List.range n := fun x hx => List.mem_range.2 (hlt x hx)
  have := (hnd.subperm hsub).length_le
  simpa using this

/-! ### Helper lemmas: the merged group record -/

theorem mergeSort_ne_nil {α : Type} (l : List α) (le : α → α → Bool) (h : l ≠ []) :
    l.mergeSort le ≠ [] := by
  intro hc
  have h2 : l.Perm [] := by
    have := (List.mergeSort_perm l le).symm
    rwa [hc] at this
  exact h h2.eq_nil

theorem filterMap_get_length (stories : List Story) (g : List ℕ)
    (h : ∀ i ∈ g, i < stories.length) :
    (g.filterMap (stories.get? ·)).length = g.length := by
  induction g with
  | nil => rfl
  | cons i t ih =>
    have hi : i < stories.length := h i (by simp)
    have hv : stories.get? i = some stories[i] := by
      simp [List.get?_eq_getElem?, List.getElem?_eq_getElem hi]
    rw [List.filterMap_cons, hv]
    simp only [List.length_cons]
    rw [ih (fun j hj => h j (by simp [hj]))]

theorem filterMap_get_mem (stories : List Story) (g : List ℕ) (s : Story)
    (hs : s ∈ g.filterMap (stories.get? ·)) : s ∈ stories := by
  rcases List.mem_filterMap.1 hs with ⟨i, _, hget⟩
  exact List.get?_mem hget

/-- The merged record of a non-empty group stores the group size as its
`duplicate_count`. -/
theorem mergeStoryGroup_dupCount (g : List Story) (hne : g ≠ []) :
    (mergeStoryGroup g).duplicateCount = some g.length := by
  rcases h : g.mergeSort idLe with _ | ⟨base, rest⟩
  · exact absurd h (mergeSort_ne_nil g idLe hne)
  · have hlen : (base :: rest).length = g.length := by
      rw [← h, List.length_mergeSort]
    unfold mergeStoryGroup
    rw [h]
    simpa using hlen

/-- The merged record of a non-empty group carries the rounded average of its
members' scores. -/
theorem mergeStoryGroup_matchScore (g : List Story) (hne : g ≠ []) :
    (mergeStoryGroup g).matchScore = some (pyRound3
      (((g.mergeSort idLe).map (fun s => s.matchScore.getD 0.5)).sum /
        ((g.mergeSort idLe).length : ℚ))) := by
  rcases h : g.mergeSort idLe with _ | ⟨base, rest⟩
  · exact absurd h (mergeSort_ne_nil g idLe hne)
  · unfold mergeStoryGroup
    rw [h]

/-- A merged group record has its stored score inside `[0, 1]` as soon as all
members obey the score constraint. -/
theorem mergeStoryGroup_scoreOk (g : List Story) (h : ∀ s ∈ g, scoreOk s) :
    scoreOk (mergeStoryGroup g) := by
  by_cases hne : g = []
  · subst hne
    simp [mergeStoryGroup, List.mergeSort, scoreOk]
    norm_num
  · have hms := mergeStoryGroup_matchScore g hne
    have hlen0 : 0 < (g.mergeSort idLe).length := by
      rcases hq : g.mergeSort idLe with _ | ⟨a, t⟩
      · exact absurd hq (mergeSort_ne_nil g idLe hne)
      · simp
    have hmem : ∀ x ∈ (g.mergeSort idLe).map (fun s => s.matchScore.getD 0.5),
        0 ≤ x ∧ x ≤ 1 := by
      intro x hx
      rcases List.mem_map.1 hx with ⟨s, hs, rfl⟩
      exact h s ((List.mergeSort_perm g idLe).subset hs)
    have hsum := sum_bounds_unit _ hmem
    rw [List.length_map] at hsum
    have hlenq : (0 : ℚ) < ((g.mergeSort idLe).length : ℚ) := by exact_mod_cast hlen0
    have havg0 : 0 ≤ ((g.mergeSort idLe).map (fun s => s.matchScore.getD 0.5)).sum /
        ((g.mergeSort idLe).length : ℚ) := div_nonneg hsum.1 (le_of_lt hlenq)
    have havg1 : ((g.mergeSort idLe).map (fun s => s.matchScore.getD 0.5)).sum /
        ((g.mergeSort idLe).length : ℚ) ≤ 1 := by
      rw [div_le_one hlenq]
      exact hsum.2
    have := pyRound3_mem_unit havg0 havg1
    unfold scoreOk
    rw [hms]
    simpa using this

/-- Every output of `_merge_duplicates` is either a merged group record or an
untouched input story. -/
theorem mem_mergeDuplicates (stories : List Story) (groups : List (List ℕ))
    (m : Story) (hm : m ∈ mergeDuplicates stories groups) :
    (∃ g ∈ groups.filter (fun g => g.length ≠ 1),
      m = mergeStoryGroup (g.filterMap (stories.get? ·))) ∨ m ∈ stories := by
  simp only [mergeDuplicates] at hm
  have hmem := (List.mergeSort_perm _ _).subset hm
  rw [List.mem_append] at hmem
  rcases hmem with h | h
  · left
    rcases List.mem_map.1 h with ⟨g, hg, rfl⟩
    exact ⟨g, hg, rfl⟩
  · right
    rcases List.mem_map.1 h with ⟨i, hi, rfl⟩
    have hlt : i < stories.length := List.mem_range.1 (List.mem_filter.1 hi).1
    rw [List.getD_eq_getElem?_getD, List.getElem?_eq_getElem hlt]
    exact List.getElem_mem hlt

/-- Score propagation through `_merge_duplicates`: if every input story obeys
the score constraint, so does every output record. -/
theorem mergeDuplicates_scoreOk (stories : List Story) (groups : List (List ℕ))
    (h : ∀ s ∈ stories, scoreOk s) :
    ∀ m ∈ mergeDuplicates stories groups, scoreOk m := by
  intro m hm
  rcases mem_mergeDuplicates stories groups m hm with ⟨g, _, rfl⟩ | hmem
  · exact mergeStoryGroup_scoreOk _
      (fun s hs => h s (filterMap_get_mem stories g s hs))
  · exact h m hmem

/-! ### Helper lemmas: the duplicate-count bookkeeping -/

/-- Total number of represented input candidates: `duplicate_count` summed
with default `1` for stories without the key. -/
def dupTotal (l : List Story) : ℕ :=
  (l.map (fun s => s.duplicateCount.getD 1)).sum

theorem dupTotal_perm {l l' : List Story} (h : l.Perm l') : dupTotal l = dupTotal l' :=
  (h.map _).sum_eq

theorem dupTotal_append (l l' : List Story) :
    dupTotal (l ++ l') = dupTotal l + dupTotal l' := by
  unfold dupTotal
  rw [List.map_append, List.sum_append]

/-- `_merge_duplicates` conserves the total candidate count whenever the
groups are disjoint in-range index sets of size at least two and the input
stories carry no `duplicate_count` of their own. -/
theorem dupTotal_mergeDuplicates (stories : List Story) (groups : List (List ℕ))
    (hnd : groups.flatten.Nodup) (hlt : ∀ x ∈ groups.flatten, x < stories.length)
    (hlen : ∀ g ∈ groups, 2 ≤ g.length)
    (hdc : ∀ s ∈ stories, s.duplicateCount = none) :
    dupTotal (mergeDuplicates stories groups) = stories.length := by
  have hactive : groups.filter (fun g => g.length ≠ 1) = groups := by
    rw [List.filter_eq_self]
    intro g hg
    have := hlen g hg
    simp only [decide_eq_true_eq]
    omega
  simp only [mergeDuplicates, hactive]
  rw [dupTotal_perm (List.mergeSort_perm _ _), dupTotal_append]
  have hmerged : dupTotal (groups.map
      (fun g => mergeStoryGroup (g.filterMap (stories.get? ·)))) =
      groups.flatten.length := by
    unfold dupTotal
    rw [List.map_map, List.length_flatten]
    congr 1
    apply List.map_congr_left
    intro g hg
    have hglt : ∀ i ∈ g, i < stories.length :=
      fun i hi => hlt i (List.mem_flatten.2 ⟨g, hg, hi⟩)
    have hglen := filterMap_get_length stories g hglt
    have hne : g.filterMap (stories.get? ·) ≠ [] := by
      intro hc
      have := hlen g hg
      rw [hc] at hglen
      simp at hglen
      omega
    simp only [Function.comp]
    rw [mergeStoryGroup_dupCount _ hne, Option.getD_some, hglen]
  have hsingles : dupTotal (((List.range stories.length).filter
      (fun i => ¬ groups.flatten.contains i)).map (fun i => stories.getD i default)) =
      stories.length - groups.flatten.length := by
    unfold dupTotal
    rw [List.map_map]
    have hone : ∀ i ∈ (List.range stories.length).filter
        (fun i => ¬ groups.flatten.contains i),
        ((fun s => s.duplicateCount.getD 1) ∘ (fun i => stories.getD i default)) i = 1 := by
      intro i hi
      have hilt : i < stories.length := List.mem_range.1 (List.mem_filter.1 hi).1
      have heq : stories.getD i default = stories[i] := by
        rw [List.getD_eq_getElem?_getD, List.getElem?_eq_getElem hilt]
        rfl
      have hmem : stories[i] ∈ stories := List.getElem_mem hilt
      simp only [Function.comp_apply, heq, hdc _ hmem, Option.getD_none]
    rw [List.map_congr_left hone]
    rw [List.map_const']
    rw [List.sum_replicate, smul_eq_mul, mul_one]
    exact filter_not_contains_range_length _ _ hnd hlt
  rw [hmerged, hsingles]
  have := nodup_lt_length_le groups.flatten stories.length hnd hlt
  omega

/-! ### Helper lemmas: a raising group merge propagates -/

theorem mapM_error_of_mem {α β : Type} (f : α → Except String β) :
    ∀ (l : List α) (a : α), a ∈ l → (∃ e, f a = .error e) →
      ∃ e', l.mapM f = .error e' := by
  intro l
  induction l with
  | nil => simp
  | cons x t ih =>
    intro a ha he
    rcases List.mem_cons.1 ha with rfl | hmem
    · rcases he with ⟨e, hfe⟩
      refine ⟨e, ?_⟩
      rw [List.mapM_cons, hfe]
      rfl
    · cases hf : f x with
      | error e2 =>
        refine ⟨e2, ?_⟩
        rw [List.mapM_cons, hf]
        rfl
      | ok b =>
        rcases ih a hmem he with ⟨e', he'⟩
        refine ⟨e', ?_⟩
        rw [List.mapM_cons, hf]
        show Except.bind (t.mapM f) _ = _
        rw [he']
        rfl

/-! ## The claims -/

/-- A semantic kernel returning 0 everywhere: stands in for the external
vectorizer in concrete instantiations. -/
def zeroVec : String → String → ℚ := fun _ _ => 0

theorem semSim_zeroVec (s1 s2 : Story) : calculateSemanticSimilarity zeroVec s1 s2 = 0 := by
  unfold calculateSemanticSimilarity zeroVec
  exact ite_self 0

/-! Concrete boundary stories for the threshold claim, given in their
post-`_clean_stories` form (only the `clean_*` keys matter to the pairwise
similarity computation). -/

def c3ex1 : Story :=
  { userStoryId := some "S1", cleanText := some "alpha beta gamma", cleanCapability := some "docs" }

def c3ex2 : Story :=
  { userStoryId := some "S2", cleanText := some "alpha beta gamma delta", cleanCapability := some "docs" }

def c3ex3 : Story :=
  { userStoryId := some "S3", cleanText := some "w1 w2 w3 w4 w5 w6 w7", cleanCapability := some "docs" }

def c3ex4 : Story :=
  { userStoryId := some "S4",
    cleanText := some "w1 w2 w3 w4 w5 w6 w7 x1 x2 x3", cleanCapability := some "docs" }

theorem c3ex12_text : calculateTextSimilarity c3ex1 c3ex2 = 3/4 := by
  unfold calculateTextSimilarity
  rw [if_neg (by decide), if_neg (by decide), if_pos (by decide)]
  rw [show ((pySplit (c3ex1.cleanText.getD "")).toFinset ∩
      (pySplit (c3ex2.cleanText.getD "")).toFinset).card = 3 from by decide]
  rw [show ((pySplit (c3ex1.cleanText.getD "")).toFinset ∪
      (pySplit (c3ex2.cleanText.getD "")).toFinset).card = 4 from by decide]
  norm_num

theorem c3ex34_text : calculateTextSimilarity c3ex3 c3ex4 = 7/10 := by
  unfold calculateTextSimilarity
  rw [if_neg (by decide), if_neg (by decide), if_pos (by decide)]
  rw [show ((pySplit (c3ex3.cleanText.getD "")).toFinset ∩
      (pySplit (c3ex4.cleanText.getD "")).toFinset).card = 7 from by decide]
  rw [show ((pySplit (c3ex3.cleanText.getD "")).toFinset ∪
      (pySplit (c3ex4.cleanText.getD "")).toFinset).card = 10 from by decide]
  norm_num

theorem seqMatchRatio_docs : seqMatchRatioStr "docs" "docs" = 1 := by
  unfold seqMatchRatioStr
  rw [if_neg (by decide)]
  rw [show totalMatchSize (("docs" : String).data.length + ("docs" : String).data.length + 1)
      ("docs" : String).data ("docs" : String).data = 4 from by decide]
  norm_num

theorem c3_cap_docs (s1 s2 : Story) (h1 : s1.cleanCapability = some "docs")
    (h2 : s2.cleanCapability = some "docs") :
    calculateCapabilitySimilarity s1 s2 = 1 := by
  unfold calculateCapabilitySimilarity
  rw [h1, h2]
  rw [if_neg (by decide)]
  exact seqMatchRatio_docs

/-- C3: the duplicate decision of `_are_stories_similar` is exactly the
threshold test `0.4·lexical + 0.4·capability + 0.2·semantic ≥ threshold`
(inclusive boundary, default threshold 0.7): the equivalence holds for every
pair and every semantic kernel, a concrete pair with combined score exactly
0.7 is classified duplicate, and a concrete pair with combined score 0.68 is
not.  (The semantic component itself is computed by sklearn's seeded
`TfidfVectorizer`, outside this repository; it enters here as the abstract
kernel `vec`, applied to the combined cleaned text exactly as the source
does.) -/
theorem c3_duplicate_decision_formula :
    (∀ (vec : String → String → ℚ) (threshold : ℚ) (s1 s2 : Story),
      areStoriesSimilar vec threshold s1 s2 = true ↔
        threshold ≤ calculateTextSimilarity s1 s2 * 0.4 +
          calculateCapabilitySimilarity s1 s2 * 0.4 +
          calculateSemanticSimilarity vec s1 s2 * 0.2) ∧
    defaultSimilarityThreshold = 0.7 ∧
    (calculateTextSimilarity c3ex1 c3ex2 * 0.4 +
        calculateCapabilitySimilarity c3ex1 c3ex2 * 0.4 +
        calculateSemanticSimilarity zeroVec c3ex1 c3ex2 * 0.2 = 0.7 ∧
      areStoriesSimilar zeroVec defaultSimilarityThreshold c3ex1 c3ex2 = true) ∧
    (calculateTextSimilarity c3ex3 c3ex4 * 0.4 +
        calculateCapabilitySimilarity c3ex3 c3ex4 * 0.4 +
        calculateSemanticSimilarity zeroVec c3ex3 c3ex4 * 0.2 = 0.68 ∧
      areStoriesSimilar zeroVec defaultSimilarityThreshold c3ex3 c3ex4 = false) := by
  refine ⟨?_, rfl, ⟨?_, ?_⟩, ⟨?_, ?_⟩⟩
  · intro vec threshold s1 s2
    unfold areStoriesSimilar
    exact ⟨fun h => of_decide_eq_true h, fun h => decide_eq_true h⟩
  · rw [c3ex12_text, c3_cap_docs c3ex1 c3ex2 rfl rfl, semSim_zeroVec]
    norm_num
  · unfold areStoriesSimilar defaultSimilarityThreshold
    rw [c3ex12_text, c3_cap_docs c3ex1 c3ex2 rfl rfl, semSim_zeroVec]
    simp only [decide_eq_true_eq]
    norm_num
  · rw [c3ex34_text, c3_cap_docs c3ex3 c3ex4 rfl rfl, semSim_zeroVec]
    norm_num
  · unfold areStoriesSimilar defaultSimilarityThreshold
    rw [c3ex34_text, c3_cap_docs c3ex3 c3ex4 rfl rfl, semSim_zeroVec]
    simp only [decide_eq_false_iff_not]
    norm_num

/-- C7: with no cached record for the input hash, `check_consistency` reports
a consistent first run with score 1.0. -/
theorem c7_first_run_consistent (cache : CCache) (inputHash : String)
    (outputStories : List Story) (h : cache inputHash = none) :
    (checkConsistency cache inputHash outputStories).isConsistent = true ∧
    (checkConsistency cache inputHash outputStories).consistencyScore = 1 := by
  unfold checkConsistency
  rw [h]
  exact ⟨rfl, rfl⟩

/-- Witness for C7 at a concrete empty cache. -/
theorem c7_first_run_consistent_witness :
    ((fun _ => none : CCache) "deadbeef" = none) ∧
    (checkConsistency (fun _ => none) "deadbeef" []).isConsistent = true ∧
    (checkConsistency (fun _ => none) "deadbeef" []).consistencyScore = 1 :=
  ⟨rfl, c7_first_run_consistent (fun _ => none) "deadbeef" [] rfl⟩

/-- C6: caching an output for a hash and re-checking the identical output
against the updated cache yields a consistent verdict with score 1.0. -/
theorem c6_cache_roundtrip_consistent (cache : CCache) (inputHash : String)
    (outputStories : List Story) (ts : String) (md : Option (List (String × String))) :
    (checkConsistency (cacheOutput cache inputHash outputStories ts md)
      inputHash outputStories).isConsistent = true ∧
    (checkConsistency (cacheOutput cache inputHash outputStories ts md)
      inputHash outputStories).consistencyScore = 1 := by
  unfold checkConsistency cacheOutput
  simp

theorem strLe_by_data {a b : String} (h : a.toList ≤ b.toList) : a ≤ b :=
  String.le_iff_toList_le.mpr h

/-- C1: with pairwise-distinct `User Story ID` values, `deduplicate_and_score`
is invariant under permutation of its input list — the pipeline first sorts
by identifier, and distinct keys make that canonical order unique, after
which every later stage is a function of the sorted list only. -/
theorem c1_dedup_permutation_invariant (vec : String → String → ℚ) (threshold : ℚ)
    (S T : List Story) (hp : S.Perm T) (hnd : (S.map idKey).Nodup) :
    deduplicateAndScore vec threshold S = deduplicateAndScore vec threshold T := by
  by_cases hS : S = []
  · subst hS
    rw [← hp.nil_eq]
  · have hT : T ≠ [] := by
      intro h
      subst h
      exact hS hp.eq_nil
    unfold deduplicateAndScore
    rw [if_neg hS, if_neg hT, mergeSortId_eq_of_perm S T hp hnd]

def c1w1 : Story := { userStoryId := some "A", userStory := some "approve documents" }

def c1w2 : Story := { userStoryId := some "B", userStory := some "submit reports" }

/-- Witness for C1: a two-story list and its reversal. -/
theorem c1_dedup_permutation_invariant_witness :
    ([c1w1, c1w2].Perm [c1w2, c1w1]) ∧ (([c1w1, c1w2].map idKey).Nodup) ∧
    deduplicateAndScore zeroVec 0.7 [c1w1, c1w2] =
      deduplicateAndScore zeroVec 0.7 [c1w2, c1w1] :=
  ⟨by decide, by decide,
    c1_dedup_permutation_invariant zeroVec 0.7 [c1w1, c1w2] [c1w2, c1w1]
      (by decide) (by decide)⟩

/-- C5 counterexample: two distinct stories sharing the identifier `"X"`.
Reversing the list reorders the tied entries under the stable identifier
sort, so `_generate_output_hash` digests different canonical serializations:
the claim fails without a distinct-identifier assumption. -/
def c5a : Story := { userStoryId := some "X", userStory := some "one" }

def c5b : Story := { userStoryId := some "X", userStory := some "two" }

theorem pairwise_idLe_same_key (a b : Story) (h : idKey a = idKey b) :
    List.Pairwise (fun x y => idLe x y = true) [a, b] := by
  constructor
  · intro y hy
    rcases List.mem_singleton.1 hy with rfl
    exact decide_eq_true (le_of_eq h)
  · exact List.pairwise_singleton _ _

/-- Counterexample for C5: the output hash is not invariant under permuting
two different stories that share one `User Story ID`. -/
theorem c5_output_hash_not_permutation_invariant :
    ([c5a, c5b].Perm [c5b, c5a]) ∧
    generateOutputHash [c5a, c5b] ≠ generateOutputHash [c5b, c5a] := by
  refine ⟨by decide, ?_⟩
  have h1 : generateOutputHash [c5a, c5b] = [reduceStory c5a, reduceStory c5b] := by
    unfold generateOutputHash
    rw [List.mergeSort_of_sorted (pairwise_idLe_same_key c5a c5b rfl)]
    rfl
  have h2 : generateOutputHash [c5b, c5a] = [reduceStory c5b, reduceStory c5a] := by
    unfold generateOutputHash
    rw [List.mergeSort_of_sorted (pairwise_idLe_same_key c5b c5a rfl)]
    rfl
  rw [h1, h2]
  intro hcontra
  have hhead : reduceStory c5a = reduceStory c5b := (List.cons.injEq _ _ _ _ ▸ hcontra).1
  have hstory : (reduceStory c5a).story = (reduceStory c5b).story :=
    congrArg OutRecord.story hhead
  exact absurd hstory (by decide)

/-- C5 amended: for story lists whose `User Story ID` values are pairwise
distinct, `_generate_output_hash` is invariant under every permutation of
the list (the canonical identifier sort is then unique). -/
theorem c5_output_hash_permutation_invariant (S T : List Story) (hp : S.Perm T)
    (hnd : (S.map idKey).Nodup) :
    generateOutputHash S = generateOutputHash T := by
  unfold generateOutputHash
  rw [mergeSortId_eq_of_perm S T hp hnd]

/-- Witness for the amended C5 at a concrete two-story list. -/
theorem c5_output_hash_permutation_invariant_witness :
    ([c1w1, c1w2].Perm [c1w2, c1w1]) ∧ (([c1w1, c1w2].map idKey).Nodup) ∧
    generateOutputHash [c1w1, c1w2] = generateOutputHash [c1w2, c1w1] :=
  ⟨by decide, by decide,
    c5_output_hash_permutation_invariant [c1w1, c1w2] [c1w2, c1w1] (by decide) (by decide)⟩

/-! Concrete chain stories for the grouping claim, in post-cleaning form:
`c2A ~ c2B` through identical story text, `c2B ~ c2C` through identical
capability text, `c2A` and `c2C` share nothing. -/

def c2A : Story :=
  { userStoryId := some "S1", cleanText := some "alpha", cleanCapability := some "qqqq" }

def c2B : Story :=
  { userStoryId := some "S2", cleanText := some "alpha", cleanCapability := some "zzzz" }

def c2C : Story :=
  { userStoryId := some "S3", cleanText := some "beta", cleanCapability := some "zzzz" }

theorem seqMatchRatio_zzzz : seqMatchRatioStr "zzzz" "zzzz" = 1 := by
  unfold seqMatchRatioStr
  rw [if_neg (by decide)]
  rw [show totalMatchSize (("zzzz" : String).data.length + ("zzzz" : String).data.length + 1)
      ("zzzz" : String).data ("zzzz" : String).data = 4 from by decide]
  norm_num

theorem seqMatchRatio_qz : seqMatchRatioStr "qqqq" "zzzz" = 0 := by
  unfold seqMatchRatioStr
  rw [if_neg (by decide)]
  rw [show totalMatchSize (("qqqq" : String).data.length + ("zzzz" : String).data.length + 1)
      ("qqqq" : String).data ("zzzz" : String).data = 0 from by decide]
  norm_num

theorem c2_simAB : areStoriesSimilar zeroVec (2/5) c2A c2B = true := by
  unfold areStoriesSimilar
  rw [show calculateTextSimilarity c2A c2B = 1 from by
    unfold calculateTextSimilarity
    rw [if_neg (by decide), if_neg (by decide), if_pos (by decide)]
    rw [show ((pySplit (c2A.cleanText.getD "")).toFinset ∩
        (pySplit (c2B.cleanText.getD "")).toFinset).card = 1 from by decide]
    rw [show ((pySplit (c2A.cleanText.getD "")).toFinset ∪
        (pySplit (c2B.cleanText.getD "")).toFinset).card = 1 from by decide]
    norm_num]
  rw [show calculateCapabilitySimilarity c2A c2B = 0 from by
    unfold calculateCapabilitySimilarity
    rw [if_neg (by decide)]
    exact seqMatchRatio_qz]
  rw [semSim_zeroVec]
  simp only [decide_eq_true_eq]
  norm_num

theorem c2_simBC : areStoriesSimilar zeroVec (2/5) c2B c2C = true := by
  unfold areStoriesSimilar
  rw [show calculateTextSimilarity c2B c2C = 0 from by
    unfold calculateTextSimilarity
    rw [if_neg (by decide), if_neg (by decide), if_pos (by decide)]
    rw [show ((pySplit (c2B.cleanText.getD "")).toFinset ∩
        (pySplit (c2C.cleanText.getD "")).toFinset).card = 0 from by decide]
    rw [show ((pySplit (c2B.cleanText.getD "")).toFinset ∪
        (pySplit (c2C.cleanText.getD "")).toFinset).card = 2 from by decide]
    norm_num]
  rw [show calculateCapabilitySimilarity c2B c2C = 1 from by
    unfold calculateCapabilitySimilarity
    rw [if_neg (by decide)]
    exact seqMatchRatio_zzzz]
  rw [semSim_zeroVec]
  simp only [decide_eq_true_eq]
  norm_num

theorem c2_simAC : areStoriesSimilar zeroVec (2/5) c2A c2C = false := by
  unfold areStoriesSimilar
  rw [show calculateTextSimilarity c2A c2C = 0 from by
    unfold calculateTextSimilarity
    rw [if_neg (by decide), if_neg (by decide), if_pos (by decide)]
    rw [show ((pySplit (c2A.cleanText.getD "")).toFinset ∩
        (pySplit (c2C.cleanText.getD "")).toFinset).card = 0 from by decide]
    rw [show ((pySplit (c2A.cleanText.getD "")).toFinset ∪
        (pySplit (c2C.cleanText.getD "")).toFinset).card = 2 from by decide]
    norm_num]
  rw [show calculateCapabilitySimilarity c2A c2C = 0 from by
    unfold calculateCapabilitySimilarity
    rw [if_neg (by decide)]
    exact seqMatchRatio_qz]
  rw [semSim_zeroVec]
  simp only [decide_eq_false_iff_not]
  norm_num

/-- Shared evaluation of `_find_duplicates` on a three-candidate chain: the
group seeded at index 0 tests indices 1 and 2 against candidate 0 only; once
the pair `{0, 1}` is formed, candidate 1 is processed and the `1 ~ 2`
similarity is never consulted, so candidate 2 stays a singleton. -/
theorem findDup_three_seed_chain (sim : Story → Story → Bool) (A B C : Story)
    (hAB : sim A B = true) (hAC : sim A C = false) :
    findDuplicates sim [A, B, C] = [[0, 1]] := by
  have h1 : dupStep sim [A, B, C] 0 [] = [0, 1] := by
    unfold dupStep
    rw [show ([A, B, C] : List Story).length = 3 from rfl]
    rw [show List.range 3 = [0, 1, 2] from rfl]
    simp [List.filter, hAB, hAC, List.getD_cons_zero, List.getD_cons_succ]
  unfold findDuplicates
  rw [show List.range ([A, B, C] : List Story).length = [0, 1, 2] from rfl]
  rw [findDupGo]
  norm_num [h1]
  have h2 : dupStep sim [A, B, C] 2 [0, 1] = [2] := by
    unfold dupStep
    rw [show ([A, B, C] : List Story).length = 3 from rfl]
    rw [show List.range 3 = [0, 1, 2] from rfl]
    simp [List.filter]
  rw [findDupGo]
  norm_num
  rw [findDupGo]
  norm_num [h2]
  rw [findDupGo]
  exact List.mergeSort_of_sorted (List.pairwise_singleton _ _)

/-- Counterexample for C2: three candidates in canonical identifier order
with `A ~ B`, `B ~ C`, `A ≁ C` (threshold 2/5, semantic kernel 0).  The scan
produces the two-element group `[0, 1]` and leaves `C` a singleton — not one
group of size 3 as the claim states: each later candidate is compared against
the group's seed `A` only, and `B ~ C` is never consulted. -/
theorem c2_chain_grouping_counterexample :
    (idKey c2A < idKey c2B ∧ idKey c2B < idKey c2C) ∧
    areStoriesSimilar zeroVec (2/5) c2A c2B = true ∧
    areStoriesSimilar zeroVec (2/5) c2B c2C = true ∧
    areStoriesSimilar zeroVec (2/5) c2A c2C = false ∧
    findDuplicates (areStoriesSimilar zeroVec (2/5)) [c2A, c2B, c2C] = [[0, 1]] ∧
    [[0, 1]] ≠ [[0, 1, 2]] :=
  ⟨⟨String.lt_iff_toList_lt.mpr (by decide), String.lt_iff_toList_lt.mpr (by decide)⟩,
    c2_simAB, c2_simBC, c2_simAC,
    findDup_three_seed_chain _ c2A c2B c2C c2_simAB c2_simAC, by decide⟩

/-- C2 amended: for candidates `A, B, C` in scan order with `A ~ B`, `B ~ C`
and `A ≁ C`, the grouping places only `B` in `A`'s group — the scan compares
each later candidate against the seed `A` alone, so `C` remains a singleton
and the output is the single group `[0, 1]` of size 2. -/
theorem c2_chain_grouping_seed_only (sim : Story → Story → Bool) (A B C : Story)
    (hAB : sim A B = true) (_hBC : sim B C = true) (hAC : sim A C = false) :
    findDuplicates sim [A, B, C] = [[0, 1]] :=
  findDup_three_seed_chain sim A B C hAB hAC

/-- Witness for the amended C2 at the concrete chain. -/
theorem c2_chain_grouping_seed_only_witness :
    areStoriesSimilar zeroVec (2/5) c2A c2B = true ∧
    areStoriesSimilar zeroVec (2/5) c2B c2C = true ∧
    areStoriesSimilar zeroVec (2/5) c2A c2C = false ∧
    findDuplicates (areStoriesSimilar zeroVec (2/5)) [c2A, c2B, c2C] = [[0, 1]] :=
  ⟨c2_simAB, c2_simBC, c2_simAC,
    c2_chain_grouping_seed_only _ c2A c2B c2C c2_simAB c2_simBC c2_simAC⟩

/-- A cosine kernel returning 0 everywhere, for concrete instantiations (it
is never consulted on an embedding-free pool). -/
def zeroCos : List ℚ → List ℚ → ℚ := fun _ _ => 0

/-- On an embedding-free pool with the embedding model available,
`find_similar_chunks` filters every chunk away and returns no chunks at all. -/
theorem findSimilarChunks_no_embeddings (cosSim : List ℚ → List ℚ → ℚ) (q : List ℚ)
    (chunks : List Chunk) (topK : ℕ) (h : ∀ c ∈ chunks, c.embedding = none) :
    findSimilarChunks cosSim (some q) chunks topK = [] := by
  unfold findSimilarChunks
  dsimp only
  by_cases hc : chunks = []
  · subst hc
    simp
  · rw [if_neg hc]
    have hfilter : chunks.filter (fun c => c.embedding.getD [] ≠ []) = [] := by
      rw [List.filter_eq_nil_iff]
      intro c hcmem
      simp [h c hcmem]
    rw [hfilter]
    simp

/-- Likewise `get_context_for_extraction` produces no context chunks at all
on an embedding-free pool when the model is available. -/
theorem getContext_no_embeddings (cosSim : List ℚ → List ℚ → ℚ) (q : List ℚ)
    (chunks : List Chunk) (w : ℕ) (h : ∀ c ∈ chunks, c.embedding = none) :
    getContextForExtraction cosSim (some q) chunks w = [] := by
  unfold getContextForExtraction
  by_cases hc : chunks = []
  · simp [hc]
  · rw [if_neg hc, findSimilarChunks_no_embeddings cosSim q chunks w h]
    simp

/-- Concrete chunks without embeddings: the later chunk is the one the
spec's word-overlap ranking would put first. -/
def c9chunk0 : Chunk :=
  { cid := "f_chunk_0", text := "unrelated filler words", embedding := none,
    mFilename := "f", mChunkIndex := 0 }

def c9chunk1 : Chunk :=
  { cid := "f_chunk_1", text := "please approve the documents", embedding := none,
    mFilename := "f", mChunkIndex := 1 }

/-- Counterexample for C9: on a chunk pool with no embeddings the code never
ranks by word overlap.  The spec's ranking would return the second chunk
(overlap 2 beats overlap 0); the code returns the first `top_k` chunks in
input order when the embedding model is missing, and the empty list when the
model is present — both differ from the claimed ranking. -/
theorem c9_word_overlap_fallback_counterexample :
    (∀ c ∈ [c9chunk0, c9chunk1], c.embedding = none) ∧
    specWordOverlapTopK "approve documents" [c9chunk0, c9chunk1] 1 = [c9chunk1] ∧
    findSimilarChunks zeroCos none [c9chunk0, c9chunk1] 1 = [c9chunk0] ∧
    findSimilarChunks zeroCos (some [1]) [c9chunk0, c9chunk1] 1 = [] ∧
    [c9chunk0] ≠ [c9chunk1] ∧ ([] : List Chunk) ≠ [c9chunk1] :=
  ⟨by decide, by decide, rfl,
    findSimilarChunks_no_embeddings zeroCos [1] [c9chunk0, c9chunk1] 1 (by decide),
    by decide, by decide⟩

/-- C9 amended: when the chunk pool carries no embeddings there is no
word-overlap ranking.  With no embedding model, `find_similar_chunks` returns
the first `top_k` chunks in input order; with the model available it returns
the empty list (every chunk is filtered out for lacking an embedding), and
`get_context_for_extraction` then returns no context at all. -/
theorem c9_no_embeddings_behaviour (cosSim : List ℚ → List ℚ → ℚ)
    (chunks : List Chunk) (topK : ℕ) (h : ∀ c ∈ chunks, c.embedding = none) :
    findSimilarChunks cosSim none chunks topK = chunks.take topK ∧
    (∀ q, findSimilarChunks cosSim (some q) chunks topK = []) ∧
    (∀ q, getContextForExtraction cosSim (some q) chunks topK = []) :=
  ⟨rfl, fun q => findSimilarChunks_no_embeddings cosSim q chunks topK h,
    fun q => getContext_no_embeddings cosSim q chunks topK h⟩

/-- Witness for the amended C9 at the concrete embedding-free pool. -/
theorem c9_no_embeddings_behaviour_witness :
    (∀ c ∈ [c9chunk0, c9chunk1], c.embedding = none) ∧
    findSimilarChunks zeroCos none [c9chunk0, c9chunk1] 1 = [c9chunk0, c9chunk1].take 1 ∧
    findSimilarChunks zeroCos (some [1, 0]) [c9chunk0, c9chunk1] 1 = [] ∧
    getContextForExtraction zeroCos (some [1, 0]) [c9chunk0, c9chunk1] 1 = [] := by
  have h := c9_no_embeddings_behaviour zeroCos [c9chunk0, c9chunk1] 1 (by decide)
  exact ⟨by decide, h.1, h.2.1 [1, 0], h.2.2 [1, 0]⟩

/-! Concrete input for the failure-containment claim: two duplicate pairs
(`alpha`/`alpha.` and `beta`/`beta.`, identical after normalization), all
sharing one identifier so the canonical sort is the identity, and a group
merge that raises on the group containing the `alpha` stories. -/

def c8r1 : Story := { userStoryId := some "k", userStory := some "alpha" }

def c8r2 : Story := { userStoryId := some "k", userStory := some "alpha." }

def c8r3 : Story := { userStoryId := some "k", userStory := some "beta" }

def c8r4 : Story := { userStoryId := some "k", userStory := some "beta." }

def c8d1 : Story := cleanStory c8r1

def c8d2 : Story := cleanStory c8r2

def c8d3 : Story := cleanStory c8r3

def c8d4 : Story := cleanStory c8r4

/-- A group merge that raises (models e.g. the `TypeError` from
`set(all_requirements)` on unhashable members) exactly on groups holding an
`alpha` story, and otherwise behaves as `_merge_story_group`. -/
def c8mergeG : List Story → Except String Story :=
  fun g =>
    if (g.map (fun s => s.cleanText.getD "")).contains "alpha" then Except.error "boom"
    else Except.ok (mergeStoryGroup g)

theorem pairwise_idLe_of_const (k : String) :
    ∀ (l : List Story), (∀ s ∈ l, idKey s = k) →
      l.Pairwise (fun a b => idLe a b = true) := by
  intro l
  induction l with
  | nil => intro _; exact List.Pairwise.nil
  | cons a t ih =>
    intro h
    constructor
    · intro b hb
      have ha : idKey a = k := h a (by simp)
      have hb' : idKey b = k := h b (by simp [hb])
      exact decide_eq_true (le_of_eq (ha.trans hb'.symm))
    · exact ih (fun s hs => h s (by simp [hs]))

theorem c8_sorted : [c8r1, c8r2, c8r3, c8r4].mergeSort idLe = [c8r1, c8r2, c8r3, c8r4] :=
  List.mergeSort_of_sorted (pairwise_idLe_of_const "k" _ (by decide))

theorem c8_cleaned : cleanStoriesList [c8r1, c8r2, c8r3, c8r4] = [c8d1, c8d2, c8d3, c8d4] := rfl

theorem c8_sim12 : areStoriesSimilar zeroVec (2/5) c8d1 c8d2 = true := by
  unfold areStoriesSimilar
  rw [show calculateTextSimilarity c8d1 c8d2 = 1 from by
    unfold calculateTextSimilarity
    rw [if_neg (by decide), if_neg (by decide), if_pos (by decide)]
    rw [show ((pySplit (c8d1.cleanText.getD "")).toFinset ∩
        (pySplit (c8d2.cleanText.getD "")).toFinset).card = 1 from by decide]
    rw [show ((pySplit (c8d1.cleanText.getD "")).toFinset ∪
        (pySplit (c8d2.cleanText.getD "")).toFinset).card = 1 from by decide]
    norm_num]
  rw [show calculateCapabilitySimilarity c8d1 c8d2 = 0 from by
    unfold calculateCapabilitySimilarity
    rw [if_pos (by decide)]]
  rw [semSim_zeroVec]
  simp only [decide_eq_true_eq]
  norm_num

theorem c8_sim13 : areStoriesSimilar zeroVec (2/5) c8d1 c8d3 = false := by
  unfold areStoriesSimilar
  rw [show calculateTextSimilarity c8d1 c8d3 = 0 from by
    unfold calculateTextSimilarity
    rw [if_neg (by decide), if_neg (by decide), if_pos (by decide)]
    rw [show ((pySplit (c8d1.cleanText.getD "")).toFinset ∩
        (pySplit (c8d3.cleanText.getD "")).toFinset).card = 0 from by decide]
    rw [show ((pySplit (c8d1.cleanText.getD "")).toFinset ∪
        (pySplit (c8d3.cleanText.getD "")).toFinset).card = 2 from by decide]
    norm_num]
  rw [show calculateCapabilitySimilarity c8d1 c8d3 = 0 from by
    unfold calculateCapabilitySimilarity
    rw [if_pos (by decide)]]
  rw [semSim_zeroVec]
  simp only [decide_eq_false_iff_not]
  norm_num

theorem c8_sim14 : areStoriesSimilar zeroVec (2/5) c8d1 c8d4 = false := by
  unfold areStoriesSimilar
  rw [show calculateTextSimilarity c8d1 c8d4 = 0 from by
    unfold calculateTextSimilarity
    rw [if_neg (by decide), if_neg (by decide), if_pos (by decide)]
    rw [show ((pySplit (c8d1.cleanText.getD "")).toFinset ∩
        (pySplit (c8d4.cleanText.getD "")).toFinset).card = 0 from by decide]
    rw [show ((pySplit (c8d1.cleanText.getD "")).toFinset ∪
        (pySplit (c8d4.cleanText.getD "")).toFinset).card = 2 from by decide]
    norm_num]
  rw [show calculateCapabilitySimilarity c8d1 c8d4 = 0 from by
    unfold calculateCapabilitySimilarity
    rw [if_pos (by decide)]]
  rw [semSim_zeroVec]
  simp only [decide_eq_false_iff_not]
  norm_num

theorem c8_sim34 : areStoriesSimilar zeroVec (2/5) c8d3 c8d4 = true := by
  unfold areStoriesSimilar
  rw [show calculateTextSimilarity c8d3 c8d4 = 1 from by
    unfold calculateTextSimilarity
    rw [if_neg (by decide), if_neg (by decide), if_pos (by decide)]
    rw [show ((pySplit (c8d3.cleanText.getD "")).toFinset ∩
        (pySplit (c8d4.cleanText.getD "")).toFinset).card = 1 from by decide]
    rw [show ((pySplit (c8d3.cleanText.getD "")).toFinset ∪
        (pySplit (c8d4.cleanText.getD "")).toFinset).card = 1 from by decide]
    norm_num]
  rw [show calculateCapabilitySimilarity c8d3 c8d4 = 0 from by
    unfold calculateCapabilitySimilarity
    rw [if_pos (by decide)]]
  rw [semSim_zeroVec]
  simp only [decide_eq_true_eq]
  norm_num

theorem c8_groups :
    findDuplicates (areStoriesSimilar zeroVec (2/5)) [c8d1, c8d2, c8d3, c8d4] =
      [[0, 1], [2, 3]] := by
  have h1 : dupStep (areStoriesSimilar zeroVec (2/5)) [c8d1, c8d2, c8d3, c8d4] 0 [] = [0, 1] := by
    unfold dupStep
    rw [show ([c8d1, c8d2, c8d3, c8d4] : List Story).length = 4 from rfl]
    rw [show List.range 4 = [0, 1, 2, 3] from rfl]
    simp [List.filter, c8_sim12, c8_sim13, c8_sim14,
      List.getD_cons_zero, List.getD_cons_succ]
  have h2 : dupStep (areStoriesSimilar zeroVec (2/5)) [c8d1, c8d2, c8d3, c8d4] 2 [0, 1] = [2, 3] := by
    unfold dupStep
    rw [show ([c8d1, c8d2, c8d3, c8d4] : List Story).length = 4 from rfl]
    rw [show List.range 4 = [0, 1, 2, 3] from rfl]
    simp [List.filter, c8_sim34, List.getD_cons_zero, List.getD_cons_succ]
  unfold findDuplicates
  rw [show List.range ([c8d1, c8d2, c8d3, c8d4] : List Story).length = [0, 1, 2, 3] from rfl]
  rw [findDupGo]
  norm_num [h1]
  rw [findDupGo]
  norm_num
  rw [findDupGo]
  norm_num [h2]
  rw [findDupGo]
  norm_num
  rw [findDupGo]
  exact List.mergeSort_of_sorted (by decide)

theorem c8_members :
    ([0, 1] : List ℕ).filterMap ([c8d1, c8d2, c8d3, c8d4].get? ·) = [c8d1, c8d2] := rfl

theorem c8_boom : c8mergeG [c8d1, c8d2] = Except.error "boom" := rfl

/-- C8 amended: a raise while merging one duplicate group is NOT contained:
no handler exists in `_merge_duplicates` or `deduplicate_and_score`, so the
whole run fails — as soon as some emitted group's merge raises, the entire
`deduplicate_and_score` call results in that propagated exception and no
story list is produced. -/
theorem c8_group_merge_failure_aborts (vec : String → String → ℚ) (threshold : ℚ)
    (mergeG : List Story → Except String Story) (S : List Story) (g : List ℕ) (e : String)
    (hS : S ≠ [])
    (hg : g ∈ findDuplicates (areStoriesSimilar vec threshold)
      (cleanStoriesList (S.mergeSort idLe)))
    (hglen : g.length ≠ 1)
    (herr : mergeG (g.filterMap
      ((cleanStoriesList (S.mergeSort idLe)).get? ·)) = Except.error e) :
    ∃ e', deduplicateAndScoreE vec threshold mergeG S = Except.error e' := by
  have hmde : ∃ e', mergeDuplicatesE mergeG (cleanStoriesList (S.mergeSort idLe))
      (findDuplicates (areStoriesSimilar vec threshold)
        (cleanStoriesList (S.mergeSort idLe))) = Except.error e' := by
    have hmem : g ∈ (findDuplicates (areStoriesSimilar vec threshold)
        (cleanStoriesList (S.mergeSort idLe))).filter (fun g => g.length ≠ 1) :=
      List.mem_filter.2 ⟨hg, by simpa using hglen⟩
    obtain ⟨e', he'⟩ := mapM_error_of_mem
      (fun h => mergeG (h.filterMap ((cleanStoriesList (S.mergeSort idLe)).get? ·)))
      _ g hmem ⟨e, herr⟩
    refine ⟨e', ?_⟩
    unfold mergeDuplicatesE
    dsimp only
    rw [he']
    rfl
  obtain ⟨e', he'⟩ := hmde
  refine ⟨e', ?_⟩
  unfold deduplicateAndScoreE
  rw [if_neg hS]
  dsimp only
  rw [he']
  rfl

/-- Witness for the amended C8 at the concrete two-group input whose first
group's merge raises. -/
theorem c8_group_merge_failure_aborts_witness :
    ∃ e', deduplicateAndScoreE zeroVec (2/5) c8mergeG [c8r1, c8r2, c8r3, c8r4] =
      Except.error e' :=
  c8_group_merge_failure_aborts zeroVec (2/5) c8mergeG [c8r1, c8r2, c8r3, c8r4]
    [0, 1] "boom" (by decide)
    (by rw [c8_sorted, c8_cleaned, c8_groups]; exact List.mem_cons_self _ _)
    (by decide)
    (by rw [c8_sorted, c8_cleaned, c8_members]; exact c8_boom)

theorem c8_mergeE_boom :
    mergeDuplicatesE c8mergeG [c8d1, c8d2, c8d3, c8d4] [[0, 1], [2, 3]] =
      Except.error "boom" := by
  unfold mergeDuplicatesE
  dsimp only
  rw [show ([[0, 1], [2, 3]] : List (List ℕ)).filter (fun g => g.length ≠ 1) =
      [[0, 1], [2, 3]] from by decide]
  rw [show ([[0, 1], [2, 3]] : List (List ℕ)).mapM
      (fun g => c8mergeG (g.filterMap ([c8d1, c8d2, c8d3, c8d4].get? ·))) =
      Except.error "boom" from by
    rw [List.mapM_cons]
    rw [show c8mergeG (([0, 1] : List ℕ).filterMap ([c8d1, c8d2, c8d3, c8d4].get? ·)) =
        Except.error "boom" from rfl]
    rfl]
  rfl

/-- Counterexample for C8: on a four-candidate input forming two duplicate
groups, a raise while merging the first group makes the whole
`deduplicate_and_score` call fail — the offending group's members are not
emitted unmerged and the second group is never processed, contradicting the
claimed per-group containment. -/
theorem c8_failure_not_contained_counterexample :
    deduplicateAndScoreE zeroVec (2/5) c8mergeG [c8r1, c8r2, c8r3, c8r4] =
      Except.error "boom" ∧
    ∀ l : List Story,
      deduplicateAndScoreE zeroVec (2/5) c8mergeG [c8r1, c8r2, c8r3, c8r4] ≠
        Except.ok l := by
  have hmain : deduplicateAndScoreE zeroVec (2/5) c8mergeG [c8r1, c8r2, c8r3, c8r4] =
      Except.error "boom" := by
    unfold deduplicateAndScoreE
    rw [if_neg (by decide)]
    dsimp only
    rw [c8_sorted, c8_cleaned, c8_groups, c8_mergeE_boom]
    rfl
  refine ⟨hmain, ?_⟩
  intro l hcontra
  rw [hmain] at hcontra
  exact Except.noConfusion hcontra

/-- The non-empty branch of `deduplicate_and_score`, spelled out. -/
theorem deduplicateAndScore_eq (vec : String → String → ℚ) (threshold : ℚ)
    (S : List Story) (hS : S ≠ []) :
    deduplicateAndScore vec threshold S =
      ((mergeDuplicates (cleanStoriesList (S.mergeSort idLe))
        (findDuplicates (areStoriesSimilar vec threshold)
          (cleanStoriesList (S.mergeSort idLe)))).map applyFinalScore).mergeSort finalLe := by
  unfold deduplicateAndScore dedupCore
  rw [if_neg hS]

/-- C4: when every input confidence lies in `[0, 1]`, every output story's
`Match Score` is exactly `round(0.5·base + 0.3·quality + 0.2·completeness, 3)`
for its merged-stage record, and that value lies in `[0, 1]` (quality and
completeness each start at 0.5, add their fixed increments and are capped at
1.0 inside their definitions). -/
theorem c4_final_score_formula_and_bounds (vec : String → String → ℚ) (threshold : ℚ)
    (S : List Story) (h : ∀ s ∈ S, scoreOk s) :
    ∀ t ∈ deduplicateAndScore vec threshold S,
      ∃ m, t = applyFinalScore m ∧
        t.matchScore = some (pyRound3 (m.matchScore.getD 0.5 * 0.5 +
          calculateQualityScore m * 0.3 + calculateCompletenessScore m * 0.2)) ∧
        ∀ v, t.matchScore = some v → 0 ≤ v ∧ v ≤ 1 := by
  intro t ht
  by_cases hS : S = []
  · subst hS
    simp [deduplicateAndScore] at ht
  · rw [deduplicateAndScore_eq vec threshold S hS] at ht
    have hmem := (List.mergeSort_perm _ finalLe).subset ht
    rcases List.mem_map.1 hmem with ⟨m, hm, rfl⟩
    refine ⟨m, rfl, rfl, ?_⟩
    have hclean : ∀ s ∈ cleanStoriesList (S.mergeSort idLe), scoreOk s := by
      intro s hs
      rcases List.mem_map.1 hs with ⟨r, hr, rfl⟩
      have hrS : r ∈ S := (List.mergeSort_perm S idLe).subset hr
      simpa [scoreOk, cleanStory] using h r hrS
    have hmOk : scoreOk m := mergeDuplicates_scoreOk _ _ hclean m hm
    intro v hv
    have hq := qualityScore_mem_unit m
    have hc := completenessScore_mem_unit m
    have h0 : 0 ≤ m.matchScore.getD 0.5 * 0.5 +
        calculateQualityScore m * 0.3 + calculateCompletenessScore m * 0.2 := by
      have := hmOk.1
      linarith [hq.1, hc.1]
    have h1 : m.matchScore.getD 0.5 * 0.5 +
        calculateQualityScore m * 0.3 + calculateCompletenessScore m * 0.2 ≤ 1 := by
      have := hmOk.2
      linarith [hq.2, hc.2]
    have hround := pyRound3_mem_unit h0 h1
    have hveq : v = pyRound3 (m.matchScore.getD 0.5 * 0.5 +
        calculateQualityScore m * 0.3 + calculateCompletenessScore m * 0.2) :=
      (Option.some.inj hv).symm
    rw [hveq]
    exact hround

/-- Witness for C4 at a concrete one-story input. -/
theorem c4_final_score_formula_and_bounds_witness :
    (∀ s ∈ [c1w1], scoreOk s) ∧
    (∀ t ∈ deduplicateAndScore zeroVec 0.7 [c1w1],
      ∃ m, t = applyFinalScore m ∧
        t.matchScore = some (pyRound3 (m.matchScore.getD 0.5 * 0.5 +
          calculateQualityScore m * 0.3 + calculateCompletenessScore m * 0.2)) ∧
        ∀ v, t.matchScore = some v → 0 ≤ v ∧ v ≤ 1) := by
  have hok : ∀ s ∈ [c1w1], scoreOk s := by
    intro s hs
    rcases List.mem_singleton.1 hs with rfl
    constructor <;> norm_num [c1w1, scoreOk]
  exact ⟨hok, c4_final_score_formula_and_bounds zeroVec 0.7 [c1w1] hok⟩

/-- C10: deduplication partitions its input — with distinct identifiers and
no pre-existing `duplicate_count` keys, the sum of `duplicate_count` over the
output (1 for stories without the key) equals the number of input candidates:
the emitted groups are pairwise disjoint in-range index sets of size at least
two, the untouched singletons are exactly the unmerged indices, and scoring
and the final sorts preserve the tally. -/
theorem c10_dedup_partitions_input (vec : String → String → ℚ) (threshold : ℚ)
    (S : List Story) (_hnd : (S.map idKey).Nodup)
    (hdc : ∀ s ∈ S, s.duplicateCount = none) :
    dupTotal (deduplicateAndScore vec threshold S) = S.length := by
  by_cases hS : S = []
  · subst hS
    simp [deduplicateAndScore, dupTotal]
  · rw [deduplicateAndScore_eq vec threshold S hS]
    have hlenS : (cleanStoriesList (S.mergeSort idLe)).length = S.length := by
      unfold cleanStoriesList
      rw [List.length_map, List.length_mergeSort]
    have hinv := findDuplicates_inv (areStoriesSimilar vec threshold)
      (cleanStoriesList (S.mergeSort idLe))
    have hdc' : ∀ s ∈ cleanStoriesList (S.mergeSort idLe), s.duplicateCount = none := by
      intro s hs
      rcases List.mem_map.1 hs with ⟨r, hr, rfl⟩
      simpa [cleanStory] using hdc r ((List.mergeSort_perm S idLe).subset hr)
    rw [dupTotal_perm (List.mergeSort_perm _ finalLe)]
    have hmap : dupTotal ((mergeDuplicates (cleanStoriesList (S.mergeSort idLe))
        (findDuplicates (areStoriesSimilar vec threshold)
          (cleanStoriesList (S.mergeSort idLe)))).map applyFinalScore) =
        dupTotal (mergeDuplicates (cleanStoriesList (S.mergeSort idLe))
          (findDuplicates (areStoriesSimilar vec threshold)
            (cleanStoriesList (S.mergeSort idLe)))) := by
      unfold dupTotal
      rw [List.map_map]
      rfl
    rw [hmap]
    rw [dupTotal_mergeDuplicates _ _ hinv.1 (fun x hx => hinv.2.1 x hx) hinv.2.2 hdc']
    exact hlenS

/-- Witness for C10 at a concrete two-story input. -/
theorem c10_dedup_partitions_input_witness :
    (([c1w1, c1w2].map idKey).Nodup) ∧
    (∀ s ∈ [c1w1, c1w2], s.duplicateCount = none) ∧
    dupTotal (deduplicateAndScore zeroVec 0.7 [c1w1, c1w2]) = 2 :=
  ⟨by decide, by decide,
    c10_dedup_partitions_input zeroVec 0.7 [c1w1, c1w2] (by decide) (by decide)⟩
